import Mathlib

/-!
Verification of the NBodySim point-vortex simulator (src/NBodySim/main.c).

Modelling conventions for the shallow embedding:

* C `double` arithmetic is modelled exactly over `ℚ`.  The square-root
  routine and the constant `M_PI` have no exact rational counterpart, so
  they are carried as components (`csqrt`, `M_PI`) of the `Config`
  record: every theorem below is about the *structure* of the arithmetic
  (which expressions are combined and stored where), which is independent
  of the numeric realisation of `sqrt` and `pi`.
* Flat C arrays of doubles (the radii tables) are modelled as total
  functions `ℕ → ℚ`; a store through a pointer becomes `Function.update`,
  and `memmove` becomes the function `memmoveQ` below (C `memmove` copies
  as if through a temporary buffer, which is exactly what `memmoveQ`
  expresses).
* The worker-pool execution of the RK4 stages is sequentialised: tasks of
  one phase are folded in index order.  Phases are separated by pool
  barriers in the C code, and within a phase the cross-task writes are
  CAS-retry additions of per-task constants (hence order-independent), so
  the sequential fold realises the same function.
* The random-number collaborators are modelled as an oracle stream
  `draw : ℕ → ℚ` together with a cursor; the resampling `do … while` loop
  of `randomizeVortex` returns the first acceptable draw, whose existence
  is an explicit hypothesis `H`.
* Globals of the C file (`numDriverVorts`, `timestep`, `nextVortID`,
  `currentTimestep`, the configuration macros) are threaded as explicit
  parameters or state components.
-/

namespace NBodySim

/-- Configuration macros of `constants.h` / globals of `main.c` that the
modelled functions read.  `csqrt` is the `sqrt` routine of `math.h` and
`M_PI` its pi constant, both carried abstractly (see file header). -/
structure Config where
  DOMAIN_SIZE_X : ℚ
  DOMAIN_SIZE_Y : ℚ
  timestep : ℚ
  M_PI : ℚ
  csqrt : ℚ → ℚ
  TEST_CASE : ℤ
  VORTEX_MERGE_RADIUS : ℚ

/-- The `struct Vortex` record.  The two-element position and velocity
buffers are inlined as four rational fields. -/
structure Vortex where
  vIndex : ℕ
  vID : ℕ
  posX : ℚ
  posY : ℚ
  velX : ℚ
  velY : ℚ
  intensity : ℚ
  initStep : ℤ

/-- The `struct Tracer` record, with position/velocity buffers inlined. -/
structure Tracer where
  tIndex : ℕ
  posX : ℚ
  posY : ℚ
  velX : ℚ
  velY : ℚ

/-- `calculateVortexRadiiIndex` of main.c (lines 43-53): offset, in
doubles, of the distance entry of a pair of vortex indices inside the
packed triangular table. -/
def calculateVortexRadiiIndex (vortIndex1 vortIndex2 : ℕ) : ℕ :=
  if vortIndex1 < vortIndex2 then
    ((vortIndex2 - 1) * vortIndex2 / 2 + vortIndex1) * 3
  else
    ((vortIndex1 - 1) * vortIndex1 / 2 + vortIndex2) * 3

/-- `calculateTracerRadiiIndex` of main.c (lines 63-72).  The global
`numDriverVorts` is passed explicitly as `n`. -/
def calculateTracerRadiiIndex (n tracerIndex vortIndex : ℕ) : ℕ :=
  (tracerIndex * n + vortIndex) * 3

/-- `velocityFunc` of main.c (lines 118-121): Biot-Savart point-vortex
kernel. -/
def velocityFunc (cfg : Config) (vortex2Intensity radius : ℚ) : ℚ :=
  vortex2Intensity / (2 * cfg.M_PI * radius)

/-- x-offset applied to the stored separation for periodic image `domain`
(the `switch` of lines 155-187 / 225-257; domain 0 applies no offset). -/
def domainOffsetX (cfg : Config) (domain : ℕ) : ℚ :=
  if domain = 1 then -cfg.DOMAIN_SIZE_X
  else if domain = 3 then cfg.DOMAIN_SIZE_X
  else if domain = 4 then -cfg.DOMAIN_SIZE_X
  else if domain = 5 then cfg.DOMAIN_SIZE_X
  else if domain = 6 then -cfg.DOMAIN_SIZE_X
  else if domain = 8 then cfg.DOMAIN_SIZE_X
  else 0

/-- y-offset applied to the stored separation for periodic image
`domain`. -/
def domainOffsetY (cfg : Config) (domain : ℕ) : ℚ :=
  if domain = 1 then cfg.DOMAIN_SIZE_Y
  else if domain = 2 then cfg.DOMAIN_SIZE_Y
  else if domain = 3 then cfg.DOMAIN_SIZE_Y
  else if domain = 6 then -cfg.DOMAIN_SIZE_Y
  else if domain = 7 then -cfg.DOMAIN_SIZE_Y
  else if domain = 8 then -cfg.DOMAIN_SIZE_Y
  else 0

/-- `calculateVel_vortex` of main.c (lines 135-202).  The C function adds
into `*xVel`, `*yVel`; the caller-initialised contents are the argument
`v0`.  The loop over the 9 periodic domains (`domains = 8`) is the inner
fold. -/
def calculateVel_vortex (cfg : Config) (n : ℕ) (vort : Vortex)
    (vortices : ℕ → Vortex) (rads : ℕ → ℚ) (v0 : ℚ × ℚ) : ℚ × ℚ :=
  (List.range n).foldl (fun acc j =>
    if vort.vIndex = j then acc
    else
      (List.range 9).foldl (fun acc2 domain =>
        let radiiIndex := calculateVortexRadiiIndex vort.vIndex (vortices j).vIndex
        let xRad := (if vort.vIndex < (vortices j).vIndex then rads (radiiIndex + 1)
                     else -rads (radiiIndex + 1)) + domainOffsetX cfg domain
        let yRad := (if vort.vIndex < (vortices j).vIndex then rads (radiiIndex + 2)
                     else -rads (radiiIndex + 2)) + domainOffsetY cfg domain
        let rad := if domain = 0 then rads radiiIndex
                   else cfg.csqrt (xRad ^ 2 + yRad ^ 2)
        if cfg.DOMAIN_SIZE_X < rad then acc2
        else
          let vmag := velocityFunc cfg (vortices j).intensity rad
          (acc2.1 + yRad / rad * vmag, acc2.2 + -xRad / rad * vmag)) acc) v0

/-- `calculateVel_tracer` of main.c (lines 212-273).  Differs from the
vortex evaluator in the index function, the absence of a sign flip and of
a self-interaction skip, and the extra `TEST_CASE == 6` small-radius
truncation. -/
def calculateVel_tracer (cfg : Config) (n : ℕ) (tracerIndex : ℕ)
    (rads : ℕ → ℚ) (vortices : ℕ → Vortex) (v0 : ℚ × ℚ) : ℚ × ℚ :=
  (List.range n).foldl (fun acc vortIndex =>
    (List.range 9).foldl (fun acc2 domain =>
      let intRadIndex := calculateTracerRadiiIndex n tracerIndex vortIndex
      let xRad := rads (intRadIndex + 1) + domainOffsetX cfg domain
      let yRad := rads (intRadIndex + 2) + domainOffsetY cfg domain
      let rad := if domain = 0 then rads intRadIndex
                 else cfg.csqrt (xRad ^ 2 + yRad ^ 2)
      if cfg.DOMAIN_SIZE_X < rad ∨ (cfg.TEST_CASE = 6 ∧ rad < 1 / 10) then acc2
      else
        let vmag := velocityFunc cfg (vortices vortIndex).intensity rad
        (acc2.1 + yRad / rad * vmag, acc2.2 + -xRad / rad * vmag)) acc) v0

/-- Store one distance entry: components at `index+1`, `index+2`, then the
magnitude at `index`, recomputed from the freshly written components
(write order of main.c lines 92-94, 104-106). -/
def writeRadEntry (cfg : Config) (tbl : ℕ → ℚ) (index : ℕ) (dx dy : ℚ) :
    ℕ → ℚ :=
  let t1 := Function.update tbl (index + 1) dx
  let t2 := Function.update t1 (index + 2) dy
  Function.update t2 index (cfg.csqrt (t2 (index + 1) ^ 2 + t2 (index + 2) ^ 2))

/-- `updateRadii_pythagorean` of main.c (lines 85-109): recompute every
vortex-vortex and tracer-vortex distance entry from positions.  Returns
the pair (new vortex table, new tracer table). -/
def updateRadii_pythagorean (cfg : Config) (n : ℕ) (vortexRadii : ℕ → ℚ)
    (vortices : ℕ → Vortex) (tracerRadii : ℕ → ℚ) (tracers : ℕ → Tracer)
    (numTracers : ℕ) : (ℕ → ℚ) × (ℕ → ℚ) :=
  ((List.range n).foldl (fun tbl i =>
    (List.range i).foldl (fun tbl2 j =>
      writeRadEntry cfg tbl2
        (calculateVortexRadiiIndex (vortices i).vIndex (vortices j).vIndex)
        ((vortices i).posX - (vortices j).posX)
        ((vortices i).posY - (vortices j).posY)) tbl) vortexRadii,
   (List.range numTracers).foldl (fun tbl tracerIndex =>
    (List.range n).foldl (fun tbl2 vortIndex =>
      writeRadEntry cfg tbl2 (calculateTracerRadiiIndex n tracerIndex vortIndex)
        ((vortices vortIndex).posX - (tracers tracerIndex).posX)
        ((vortices vortIndex).posY - (tracers tracerIndex).posY)) tbl) tracerRadii)

/-- `memmove` over a flat array of rationals: `len` cells starting at
`src` are copied (as if through a buffer, reading the pre-call contents)
to the cells starting at `dst`. -/
def memmoveQ (a : ℕ → ℚ) (dst src len : ℕ) : ℕ → ℚ :=
  fun i => if dst ≤ i ∧ i < dst + len then a (src + (i - dst)) else a i

/-- One iteration of the row-shift loop of `deleteVortex` (main.c lines
696-707), for row `r` with deletion column `d` and population `n`.  The
`if (rowIndex == numDriverVorts-2)` of line 702 guards only the `destPtr`
assignment, so on every non-final row the second `memmove` reuses the
first `memmove` destination `calculateVortexRadiiIndex 0 r`. -/
def deleteVortexRadsRow (n d r : ℕ) (a : ℕ → ℚ) : ℕ → ℚ :=
  let a1 := memmoveQ a (calculateVortexRadiiIndex 0 r)
    (calculateVortexRadiiIndex 0 (r + 1)) (d * 3)
  let dest := if r = n - 2 then calculateVortexRadiiIndex d r
              else calculateVortexRadiiIndex 0 r
  memmoveQ a1 dest (calculateVortexRadiiIndex (d + 1) (r + 1)) ((r - d) * 3)

/-- Result record of `deleteVortex`. -/
structure DeleteResult where
  vortexRads : ℕ → ℚ
  vorts : ℕ → Vortex
  tracerRads : ℕ → ℚ
  numDriverVorts : ℕ

/-- `deleteVortex` of main.c (lines 689-725): triangular-table row
shifts, tracer-table shift (whose source offset is one double, `+1`, as
in line 713), vortex-array shift, population decrement, and `vIndex`
fix-up of the vortices above the deleted one. -/
def deleteVortex (n deletionIndex : ℕ) (vortexRads : ℕ → ℚ)
    (vorts : ℕ → Vortex) (tracerRads : ℕ → ℚ) (numTracers : ℕ) :
    DeleteResult :=
  let vr := (List.range' deletionIndex (n - 1 - deletionIndex)).foldl
    (fun a r => deleteVortexRadsRow n deletionIndex r a) vortexRads
  let tr := (List.range numTracers).foldl (fun a tracerI =>
    let tRadDelIndex := calculateTracerRadiiIndex n tracerI deletionIndex
    memmoveQ a tRadDelIndex (tRadDelIndex + 1) ((n - deletionIndex) * 3)) tracerRads
  let vs := fun i => if deletionIndex ≤ i ∧ i < n - 1 then vorts (i + 1) else vorts i
  let n2 := n - 1
  let vs2 := fun i => if deletionIndex ≤ i ∧ i < n2 then
      { vs i with vIndex := (vs i).vIndex - 1 } else vs i
  { vortexRads := vr, vorts := vs2, tracerRads := tr, numDriverVorts := n2 }

/-- The `.001` intensity floor of `randomizeVortex` (main.c line 739). -/
def minIntensity : ℚ := 1 / 1000

/-- The double-to-char conversion `x / fabs(x)` of `mergeIntensities`
(main.c lines 754-755); exactly the sign for nonzero `x` (for `x = 0` the
C expression is undefined; the model yields 0 there). -/
def csign (x : ℚ) : ℚ := x / |x|

/-- `mergeIntensities` of main.c (lines 753-759). -/
def mergeIntensities (cfg : Config) (int1 int2 : ℚ) : ℚ :=
  let sign1 := csign int1
  let sign2 := csign int2
  let newInt := cfg.csqrt |sign1 * int1 ^ 2 + sign2 * int2 ^ 2|
  if 0 < int1 + int2 then newInt else -newInt

/-- Result record of `randomizeVortex`: the rewritten vortex plus the
advanced RNG cursor and vortex-ID counter. -/
structure RandResult where
  vort : Vortex
  counter : ℕ
  nextID : ℕ

/-- `randomizeVortex` of main.c (lines 733-747).  The RNG collaborator is
the oracle stream `draw` read at an advancing cursor: position uses draws
`c`, `c+1`; draw `c+2` is the discarded first normal sample of line 738;
the `do … while` of lines 741-743 returns the first subsequent draw whose
magnitude reaches `minIntensity`, whose existence is the hypothesis
`H`. -/
def randomizeVortex (draw : ℕ → ℚ)
    (H : ∀ s : ℕ, ∃ k : ℕ, minIntensity ≤ |draw (s + k)|)
    (nextVortID counter : ℕ) (currentTimestep : ℤ) (vort : Vortex) :
    RandResult :=
  let k := Nat.find (H (counter + 3))
  { vort := { vort with
      vID := nextVortID
      posX := draw counter
      posY := draw (counter + 1)
      intensity := draw (counter + 3 + k)
      velX := 0
      velY := 0
      initStep := currentTimestep }
    counter := counter + 3 + k + 1
    nextID := nextVortID + 1 }

/-- The vortex-array portion of the simulation state used by the
spawn path: population count, dense array, `nextVortID` global and RNG
cursor. -/
structure VortArray where
  n : ℕ
  vorts : ℕ → Vortex
  nextVortID : ℕ
  counter : ℕ

/-- `spawnVortex` of main.c (lines 764-773): append one vortex at dense
index `n` with `vIndex = n` and randomized state. -/
def spawnVortex (draw : ℕ → ℚ)
    (H : ∀ s : ℕ, ∃ k : ℕ, minIntensity ≤ |draw (s + k)|)
    (currentTimestep : ℤ) (st : VortArray) : VortArray :=
  let spawnIndex := st.n
  let vort0 : Vortex :=
    { vIndex := spawnIndex, vID := 0, posX := 0, posY := 0,
      velX := 0, velY := 0, intensity := 0, initStep := 0 }
  let r := randomizeVortex draw H st.nextVortID st.counter currentTimestep vort0
  { n := st.n + 1
    vorts := Function.update st.vorts spawnIndex r.vort
    nextVortID := r.nextID
    counter := r.counter }

/-- `spawnVorts` of main.c (lines 775-805): `numVortsToSpawn` iterations
of `spawnVortex`.  The capacity-growth branch only reallocates storage
(contents preserved by `realloc`) and is not represented. -/
def spawnVorts (draw : ℕ → ℚ)
    (H : ∀ s : ℕ, ∃ k : ℕ, minIntensity ≤ |draw (s + k)|)
    (currentTimestep : ℤ) (numVortsToSpawn : ℕ) (st : VortArray) :
    VortArray :=
  match numVortsToSpawn with
  | 0 => st
  | k + 1 => spawnVorts draw H currentTimestep k
      (spawnVortex draw H currentTimestep st)

/-- Simulation state visible to the merge sweep. -/
structure MergeState where
  numDriverVorts : ℕ
  vorts : ℕ → Vortex
  vortexRadii : ℕ → ℚ
  tracerRads : ℕ → ℚ
  tracers : ℕ → Tracer
  nextVortID : ℕ
  counter : ℕ

/-- The fired merge branch of `mergeVorts` (main.c lines 826-852): the
body executed for a pair `(vortIndex1, vortIndex2)` whose cached distance
is below `VORTEX_MERGE_RADIUS`.  Returns the new state and the remaining
spawn budget. -/
def mergeFire (cfg : Config) (draw : ℕ → ℚ)
    (H : ∀ s : ℕ, ∃ k : ℕ, minIntensity ≤ |draw (s + k)|)
    (numTracers : ℕ) (currentTimestep : ℤ) (st : MergeState)
    (vortIndex1 vortIndex2 : ℕ) (spawnsLeft : ℕ) : MergeState × ℕ :=
  let vort1 := st.vorts vortIndex1
  let vort2 := st.vorts vortIndex2
  let absInt1 := |vort1.intensity|
  let absInt2 := |vort2.intensity|
  let newXPos := (vort1.posX * absInt1 + vort2.posX * absInt2) / (absInt1 + absInt2)
  let newYPos := (vort1.posY * absInt1 + vort2.posY * absInt2) / (absInt1 + absInt2)
  let newIntensity := mergeIntensities cfg vort1.intensity vort2.intensity
  let vorts1 := Function.update st.vorts vortIndex1
    { vort1 with posX := newXPos, posY := newYPos, intensity := newIntensity }
  if spawnsLeft ≠ 0 then
    let r := randomizeVortex draw H st.nextVortID st.counter currentTimestep
      (vorts1 vortIndex2)
    let vorts2 := Function.update vorts1 vortIndex2 r.vort
    let upd := updateRadii_pythagorean cfg st.numDriverVorts st.vortexRadii
      vorts2 st.tracerRads st.tracers numTracers
    ({ st with vorts := vorts2, vortexRadii := upd.1, tracerRads := upd.2, nextVortID := r.nextID, counter := r.counter },
      spawnsLeft - 1)
  else
    let dr := deleteVortex st.numDriverVorts (vorts1 vortIndex2).vIndex
      st.vortexRadii vorts1 st.tracerRads numTracers
    let upd := updateRadii_pythagorean cfg dr.numDriverVorts dr.vortexRads
      dr.vorts dr.tracerRads st.tracers numTracers
    ({ st with numDriverVorts := dr.numDriverVorts, vorts := dr.vorts, vortexRadii := upd.1, tracerRads := upd.2 },
      0)

/-- Truncation toward zero, as the C cast in `fmod`. -/
def ratTrunc (q : ℚ) : ℤ := if q < 0 then ⌈q⌉ else ⌊q⌋

/-- C `fmod x y` for the positive moduli used by `wrapPositions`:
`x - y * trunc (x / y)`. -/
def cfmod (x y : ℚ) : ℚ := x - y * (ratTrunc (x / y) : ℚ)

/-- The per-coordinate body of `wrapPositions` (main.c lines 955-977) with
modulus `W`. -/
def wrapCoordinate (W x : ℚ) : ℚ :=
  if x < 0 then W + cfmod x W
  else if W < x then cfmod x W
  else x

/-- `wrapPositions` of main.c (lines 953-979): wrap both coordinates of
the first `n` vortices and first `m` tracers. -/
def wrapPositions (cfg : Config) (n : ℕ) (vorts : ℕ → Vortex) (m : ℕ)
    (tracers : ℕ → Tracer) : (ℕ → Vortex) × (ℕ → Tracer) :=
  (fun i => if i < n then
      { vorts i with
        posX := wrapCoordinate cfg.DOMAIN_SIZE_X (vorts i).posX
        posY := wrapCoordinate cfg.DOMAIN_SIZE_Y (vorts i).posY }
    else vorts i,
   fun i => if i < m then
      { tracers i with
        posX := wrapCoordinate cfg.DOMAIN_SIZE_X (tracers i).posX
        posY := wrapCoordinate cfg.DOMAIN_SIZE_Y (tracers i).posY }
    else tracers i)

/-- Result record of one `stepForwardVortexRK4` task. -/
structure VortexTaskResult where
  workingRadii : ℕ → ℚ
  intermediateTracerRads : ℕ → ℚ
  vort : Vortex

/-- `stepForwardVortexRK4` of main.c (lines 378-540), the per-vortex task
of one RK stage.  Of `k1..k4` only the slot of the running `RKStep` is
set (the `switch` of lines 400-430); the same switch halves the working
velocity on steps 1 and 2.  The CAS retry loops of lines 479-499 are, in
the sequential semantics, plain read-modify-write updates; note that line
488 displaces the y-component by `xVel*timestep` (sic - the source reuses
`xVel` there).  The `SAVE_RK_STEPS` block writes only the side position
cache and is not represented. -/
def stepForwardVortexRK4 (cfg : Config) (n : ℕ) (vortices : ℕ → Vortex)
    (originVortIndex : ℕ)
    (intermediateRadii workingRadii intermediateTracerRads : ℕ → ℚ)
    (numTracers : ℕ) (RKStep : ℕ) : VortexTaskResult :=
  let vort := vortices originVortIndex
  let vortIndex := vort.vIndex
  let v := calculateVel_vortex cfg n vort vortices intermediateRadii (0, 0)
  let k1 := if RKStep = 1 then v else ((0 : ℚ), (0 : ℚ))
  let k2 := if RKStep = 2 then v else ((0 : ℚ), (0 : ℚ))
  let k3 := if RKStep = 3 then v else ((0 : ℚ), (0 : ℚ))
  let k4 := if RKStep = 4 then v else ((0 : ℚ), (0 : ℚ))
  let xVel := if RKStep = 1 ∨ RKStep = 2 then v.1 / 2 else v.1
  let yVel := if RKStep = 1 ∨ RKStep = 2 then v.2 / 2 else v.2
  let working2 := (List.range n).foldl (fun w j =>
    if originVortIndex = j then w
    else
      let radiiIndex := calculateVortexRadiiIndex vortIndex (vortices j).vIndex
      writeRadEntry cfg w radiiIndex
        (if (vortices j).vIndex < vort.vIndex
          then w (radiiIndex + 1) + xVel * cfg.timestep
          else w (radiiIndex + 1) - xVel * cfg.timestep)
        (if (vortices j).vIndex < vort.vIndex
          then w (radiiIndex + 2) + xVel * cfg.timestep
          else w (radiiIndex + 2) - xVel * cfg.timestep))
    workingRadii
  let itr2 := (List.range numTracers).foldl (fun t tracerI =>
    let index := calculateTracerRadiiIndex n tracerI originVortIndex
    writeRadEntry cfg t index (t (index + 1) + xVel * cfg.timestep)
      (t (index + 2) + yVel * cfg.timestep))
    intermediateTracerRads
  let vort2 := { vort with
    velX := vort.velX + (k1.1 + k2.1 * 2 + k3.1 * 2 + k4.1) / 6
    velY := vort.velY + (k1.2 + k2.2 * 2 + k3.2 * 2 + k4.2) / 6 }
  { workingRadii := working2, intermediateTracerRads := itr2, vort := vort2 }

/-- One iteration of the tracer loop of `stepForwardTracerRK4` (main.c
lines 284-372): velocity evaluation against the intermediate tracer
table, stage bookkeeping, rewrite of this tracer's intermediate entries
from the committed table displaced by the (possibly halved) stage
velocity, and the weighted velocity accumulation. -/
def tracerLoopBody (cfg : Config) (n RKStep : ℕ) (tracerRadii : ℕ → ℚ)
    (vortices : ℕ → Vortex) (acc : (ℕ → Tracer) × (ℕ → ℚ))
    (tracerIndex : ℕ) : (ℕ → Tracer) × (ℕ → ℚ) :=
  let tracers := acc.1
  let intermediateTracerRads := acc.2
  let tracer := tracers tracerIndex
  let offsetTracerIndex := tracer.tIndex - (tracers 0).tIndex
  let v := calculateVel_tracer cfg n offsetTracerIndex intermediateTracerRads
    vortices (0, 0)
  let k1 := if RKStep = 1 then v else ((0 : ℚ), (0 : ℚ))
  let k2 := if RKStep = 2 then v else ((0 : ℚ), (0 : ℚ))
  let k3 := if RKStep = 3 then v else ((0 : ℚ), (0 : ℚ))
  let k4 := if RKStep = 4 then v else ((0 : ℚ), (0 : ℚ))
  let xVel := if RKStep = 1 ∨ RKStep = 2 then v.1 / 2 else v.1
  let yVel := if RKStep = 1 ∨ RKStep = 2 then v.2 / 2 else v.2
  let itr2 := (List.range n).foldl (fun t vortexIndex =>
    let radIndex := calculateTracerRadiiIndex n offsetTracerIndex vortexIndex
    writeRadEntry cfg t radIndex
      (tracerRadii (radIndex + 1) - xVel * cfg.timestep)
      (tracerRadii (radIndex + 2) - yVel * cfg.timestep))
    intermediateTracerRads
  let tracer2 := { tracer with
    velX := tracer.velX + (k1.1 + k2.1 * 2 + k3.1 * 2 + k4.1) / 6
    velY := tracer.velY + (k1.2 + k2.2 * 2 + k3.2 * 2 + k4.2) / 6 }
  (Function.update tracers tracerIndex tracer2, itr2)

/-- `stepForwardTracerRK4` (single-thread path, `THREADCOUNT == 1`, where
one call handles all `m` tracers). -/
def stepForwardTracerRK4 (cfg : Config) (n m RKStep : ℕ)
    (tracerRadii : ℕ → ℚ) (vortices : ℕ → Vortex) (tracers : ℕ → Tracer)
    (intermediateTracerRads : ℕ → ℚ) : (ℕ → Tracer) × (ℕ → ℚ) :=
  (List.range m).foldl (tracerLoopBody cfg n RKStep tracerRadii vortices)
    (tracers, intermediateTracerRads)

/-- The per-stage mutable state of `stepForward_RK4`: the vortex/tracer
arrays and the three scratch tables. -/
structure StageState where
  vortices : ℕ → Vortex
  tracers : ℕ → Tracer
  workingRadii : ℕ → ℚ
  intermediateRadii : ℕ → ℚ
  intermediateTracerRads : ℕ → ℚ

/-- Dispatch of one vortex task (the body of the loop at main.c lines
636-648): run the task on the current arrays and store its result
vortex back into the origin slot. -/
def vortexPhaseStep (cfg : Config) (n m RKStep : ℕ)
    (intermediateRadii : ℕ → ℚ)
    (acc : (ℕ → Vortex) × (ℕ → ℚ) × (ℕ → ℚ)) (originVortIndex : ℕ) :
    (ℕ → Vortex) × (ℕ → ℚ) × (ℕ → ℚ) :=
  let r := stepForwardVortexRK4 cfg n acc.1 originVortIndex
    intermediateRadii acc.2.1 acc.2.2 m RKStep
  (Function.update acc.1 originVortIndex r.vort, r.workingRadii,
    r.intermediateTracerRads)

/-- The vortex task dispatch loop of one RK stage (main.c lines 636-650),
sequentialised in origin order. -/
def vortexPhase (cfg : Config) (n m RKStep : ℕ) (intermediateRadii : ℕ → ℚ)
    (acc0 : (ℕ → Vortex) × (ℕ → ℚ) × (ℕ → ℚ)) :
    (ℕ → Vortex) × (ℕ → ℚ) × (ℕ → ℚ) :=
  (List.range n).foldl (vortexPhaseStep cfg n m RKStep intermediateRadii) acc0

/-- One RK stage of `stepForward_RK4` (the body of the `for RKStep` loop,
main.c lines 588-654): tracer phase, barrier, vortex phase, barrier, then
`intermediateRadii ← workingRadii` and `workingRadii ← vortRadii`. -/
def rkStage (cfg : Config) (n m : ℕ) (vortRadii tracerRadii : ℕ → ℚ)
    (s : StageState) (RKStep : ℕ) : StageState :=
  let tp := stepForwardTracerRK4 cfg n m RKStep tracerRadii s.vortices
    s.tracers s.intermediateTracerRads
  let vp := vortexPhase cfg n m RKStep s.intermediateRadii
    (s.vortices, s.workingRadii, tp.2)
  { vortices := vp.1, tracers := tp.1, workingRadii := vortRadii,
    intermediateRadii := vp.2.1, intermediateTracerRads := vp.2.2 }

/-- The committed simulation state around one `stepForward_RK4` call. -/
structure SimState where
  vortices : ℕ → Vortex
  tracers : ℕ → Tracer
  vortRadii : ℕ → ℚ
  tracerRadii : ℕ → ℚ

/-- The stage state after the first `s` iterations of the `for RKStep`
loop. -/
def stageStateAfter (cfg : Config) (n m : ℕ) (vortRadii tracerRadii : ℕ → ℚ)
    (s0 : StageState) : ℕ → StageState
  | 0 => s0
  | s + 1 => rkStage cfg n m vortRadii tracerRadii
      (stageStateAfter cfg n m vortRadii tracerRadii s0 s) (s + 1)

/-- The entry state of the stage loop: velocities of the live vortices
and tracers zeroed (main.c lines 576-586), `workingRadii` and
`intermediateRadii` seeded from the committed vortex table and
`intermediateTracerRads` from the committed tracer table (lines
563-573). -/
def initialStage (n m : ℕ) (st : SimState) : StageState :=
  { vortices := fun i => if i < n then
      { st.vortices i with velX := 0, velY := 0 } else st.vortices i
    tracers := fun i => if i < m then
      { st.tracers i with velX := 0, velY := 0 } else st.tracers i
    workingRadii := st.vortRadii
    intermediateRadii := st.vortRadii
    intermediateTracerRads := st.tracerRadii }

/-- `stepForward_RK4` of main.c (lines 551-678): four RK stages, then the
position commit (lines 656-666) and the copy of the final intermediate
tracer table into the committed tracer table (line 668).  The committed
vortex table is returned as passed: it is only ever a `memcpy` source. -/
def stepForward_RK4 (cfg : Config) (n m : ℕ) (st : SimState) : SimState :=
  let s4 := stageStateAfter cfg n m st.vortRadii st.tracerRadii
    (initialStage n m st) 4
  { vortices := fun i => if i < n then
      { s4.vortices i with
        posX := (s4.vortices i).posX + (s4.vortices i).velX * cfg.timestep
        posY := (s4.vortices i).posY + (s4.vortices i).velY * cfg.timestep }
    else s4.vortices i
    tracers := fun i => if i < m then
      { s4.tracers i with
        posX := (s4.tracers i).posX + (s4.tracers i).velX * cfg.timestep
        posY := (s4.tracers i).posY + (s4.tracers i).velY * cfg.timestep }
    else s4.tracers i
    vortRadii := st.vortRadii
    tracerRadii := s4.intermediateTracerRads }

/-- The stage-`s` velocity sample (`k_s`) of vortex `i`: the force
evaluation against the intermediate vortex table as it stands when stage
`s` begins. -/
def kVort (cfg : Config) (n m : ℕ) (vortRadii tracerRadii : ℕ → ℚ)
    (s0 : StageState) (s i : ℕ) : ℚ × ℚ :=
  let sb := stageStateAfter cfg n m vortRadii tracerRadii s0 (s - 1)
  calculateVel_vortex cfg n (sb.vortices i) sb.vortices sb.intermediateRadii (0, 0)

/-- The stage-`s` velocity sample of tracer `t`: the force evaluation
against the intermediate tracer table as it stands when stage `s`
begins. -/
def kTracer (cfg : Config) (n m : ℕ) (vortRadii tracerRadii : ℕ → ℚ)
    (s0 : StageState) (s t : ℕ) : ℚ × ℚ :=
  let sb := stageStateAfter cfg n m vortRadii tracerRadii s0 (s - 1)
  calculateVel_tracer cfg n ((sb.tracers t).tIndex - (sb.tracers 0).tIndex)
    sb.intermediateTracerRads sb.vortices (0, 0)

/-- The sign function in the claims' sense: 1, -1, or 0. -/
def sgnQ (x : ℚ) : ℚ := if 0 < x then 1 else if x < 0 then -1 else 0

/-- The velocity contribution one RK stage accumulates from its sample
`v`: the stage switch fills exactly one of `k1..k4`, and the task adds
`(k1 + 2·k2 + 2·k3 + k4)/6`. -/
def rkWeighted (RKStep : ℕ) (v : ℚ × ℚ) : ℚ × ℚ :=
  (((if RKStep = 1 then v else ((0 : ℚ), (0 : ℚ))).1
      + (if RKStep = 2 then v else ((0 : ℚ), (0 : ℚ))).1 * 2
      + (if RKStep = 3 then v else ((0 : ℚ), (0 : ℚ))).1 * 2
      + (if RKStep = 4 then v else ((0 : ℚ), (0 : ℚ))).1) / 6,
   ((if RKStep = 1 then v else ((0 : ℚ), (0 : ℚ))).2
      + (if RKStep = 2 then v else ((0 : ℚ), (0 : ℚ))).2 * 2
      + (if RKStep = 3 then v else ((0 : ℚ), (0 : ℚ))).2 * 2
      + (if RKStep = 4 then v else ((0 : ℚ), (0 : ℚ))).2) / 6)

/-- The claim C1 names the value `3·(max·(max−1)/2 + min)`; this is its
direct transcription, used to compare against the source function. -/
def triangleIndexSpec (a b : ℕ) : ℕ :=
  3 * (max a b * (max a b - 1) / 2 + min a b)

/-- Transcription of the C5 claim's description of one periodic image's
contribution to a vortex velocity: the image-adjusted separation, the
radius `r` (cached for the primary image, recomputed otherwise), the skip
exactly when `r` exceeds the domain width, and otherwise the added pair
`((Δy/r)·vmag, (−Δx/r)·vmag)` with `vmag = intensity/(2π·r)`. -/
def specVortexImageVel (cfg : Config) (vort other : Vortex) (rads : ℕ → ℚ)
    (domain : ℕ) : ℚ × ℚ :=
  let radiiIndex := calculateVortexRadiiIndex vort.vIndex other.vIndex
  let xRad := (if vort.vIndex < other.vIndex then rads (radiiIndex + 1)
               else -rads (radiiIndex + 1)) + domainOffsetX cfg domain
  let yRad := (if vort.vIndex < other.vIndex then rads (radiiIndex + 2)
               else -rads (radiiIndex + 2)) + domainOffsetY cfg domain
  let rad := if domain = 0 then rads radiiIndex
             else cfg.csqrt (xRad ^ 2 + yRad ^ 2)
  let vmag := other.intensity / (2 * cfg.M_PI * rad)
  if cfg.DOMAIN_SIZE_X < rad then (0, 0)
  else (yRad / rad * vmag, -xRad / rad * vmag)

/-- Transcription of the C5 claim's per-image contribution to a tracer
velocity, with the additional degenerate-test truncation `r < 0.1` when
`TEST_CASE = 6`. -/
def specTracerImageVel (cfg : Config) (n tracerIndex vortIndex : ℕ)
    (rads : ℕ → ℚ) (intensity : ℚ) (domain : ℕ) : ℚ × ℚ :=
  let intRadIndex := calculateTracerRadiiIndex n tracerIndex vortIndex
  let xRad := rads (intRadIndex + 1) + domainOffsetX cfg domain
  let yRad := rads (intRadIndex + 2) + domainOffsetY cfg domain
  let rad := if domain = 0 then rads intRadIndex
             else cfg.csqrt (xRad ^ 2 + yRad ^ 2)
  let vmag := intensity / (2 * cfg.M_PI * rad)
  if cfg.DOMAIN_SIZE_X < rad ∨ (cfg.TEST_CASE = 6 ∧ rad < 1 / 10) then (0, 0)
  else (yRad / rad * vmag, -xRad / rad * vmag)

/-- Configuration for the RK4 displacement scenario: wide domain, unit
timestep, and a `csqrt` whose value 200 exceeds the domain width so that
all eight non-primary images are truncated away. -/
def cfgC2 : Config :=
  { DOMAIN_SIZE_X := 100, DOMAIN_SIZE_Y := 100, timestep := 1, M_PI := 1,
    csqrt := fun _ => 200, TEST_CASE := 0, VORTEX_MERGE_RADIUS := 0 }

/-- Two-vortex family (identity `vIndex`, intensity 2) for the RK4
displacement scenario. -/
def vortsC2 : ℕ → Vortex := fun j =>
  { vIndex := j, vID := j, posX := 0, posY := 0, velX := 0, velY := 0,
    intensity := 2, initStep := 0 }

/-- Distance table whose single pair entry is `(mag, Δx, Δy) = (1, 0, 1)`. -/
def radsC2 : ℕ → ℚ := fun i =>
  if i = 0 then 1 else if i = 1 then 0 else if i = 2 then 1 else 0

/-- A distance table holding its own flat index in every cell, so that
moves are visible. -/
def exTableC3 : ℕ → ℚ := fun i => (i : ℚ)

/-- A concrete configuration (unit domain) for witnesses. -/
def cfgW : Config :=
  { DOMAIN_SIZE_X := 1, DOMAIN_SIZE_Y := 1, timestep := 1, M_PI := 1,
    csqrt := fun _ => 0, TEST_CASE := 0, VORTEX_MERGE_RADIUS := 0 }

/-- A concrete vortex sitting exactly on the domain edge `x = 1`. -/
def vortW : Vortex :=
  { vIndex := 0, vID := 0, posX := 1, posY := 0, velX := 0, velY := 0,
    intensity := 1, initStep := 0 }

/-- A concrete tracer for witnesses. -/
def trcW : Tracer := { tIndex := 0, posX := 0, posY := 0, velX := 0, velY := 0 }

/-- A concrete vortex family with identity `vIndex` for witnesses. -/
def vortFamW : ℕ → Vortex := fun i =>
  { vIndex := i, vID := i, posX := (i : ℚ), posY := 0, velX := 0, velY := 0,
    intensity := 1, initStep := 0 }

/-- A concrete tracer family with identity `tIndex` for witnesses. -/
def trcFamW : ℕ → Tracer := fun i =>
  { tIndex := i, posX := 0, posY := (i : ℚ), velX := 0, velY := 0 }

/-- A concrete one-vortex population state for spawn witnesses. -/
def vortArrW : VortArray :=
  { n := 1, vorts := vortFamW, nextVortID := 5, counter := 0 }

/-- A constant RNG oracle stream for witnesses. -/
def drawW : ℕ → ℚ := fun _ => 1

/-- A concrete committed simulation state for RK4 witnesses. -/
def simStW : SimState :=
  { vortices := vortFamW, tracers := trcFamW, vortRadii := fun _ => 0,
    tracerRadii := fun _ => 0 }

/-- Unit-domain configuration with merge radius 1 for merge witnesses. -/
def cfgM : Config := { cfgW with VORTEX_MERGE_RADIUS := 1 }

/-- A concrete two-vortex merge-sweep state whose cached pair distance 0
is below the merge radius 1. -/
def mergeStW : MergeState :=
  { numDriverVorts := 2, vorts := vortFamW, vortexRadii := fun _ => 0,
    tracerRads := fun _ => 0, tracers := trcFamW, nextVortID := 7,
    counter := 0 }

/-- Twice the triangular-table pair number `(c+1)*c/2` is exactly
`(c+1)*c`: the product of two consecutive naturals is even. -/
theorem tri_two (c : ℕ) : 2 * ((c + 1) * c / 2) = (c + 1) * c := by
  have h : 2 ∣ (c + 1) * c := by
    have he : Even (c * (c + 1)) := Nat.even_mul_succ_self c
    rw [mul_comm] at he
    exact he.two_dvd
  exact Nat.mul_div_cancel' h

/-- Uniqueness of the triangular decomposition: a pair number together
with an offset below its row determines row and offset. -/
theorem pair_decomp_unique (p c r e : ℕ) (hp : p ≤ c) (hr : r ≤ e)
    (h : (c + 1) * c + 2 * p = (e + 1) * e + 2 * r) : c = e ∧ p = r := by
  rcases Nat.lt_trichotomy c e with hlt | heq | hgt
  · exfalso
    have hC : (c + 2) * (c + 1) = (c + 1) * c + (2 * c + 2) := by ring
    have hB : (c + 2) * (c + 1) ≤ (e + 1) * e :=
      Nat.mul_le_mul (by omega) (by omega)
    omega
  · exact ⟨heq, by subst heq; omega⟩
  · exfalso
    have hC : (e + 2) * (e + 1) = (e + 1) * e + (2 * e + 2) := by ring
    have hB : (e + 2) * (e + 1) ≤ (c + 1) * c :=
      Nat.mul_le_mul (by omega) (by omega)
    omega

/-- The source index function agrees with the max/min formula of the
claim on every pair of distinct arguments. -/
theorem calculateVortexRadiiIndex_eq_spec (x y : ℕ) (hxy : x ≠ y) :
    calculateVortexRadiiIndex x y = triangleIndexSpec x y := by
  rcases lt_or_gt_of_ne hxy with h | h
  · simp only [calculateVortexRadiiIndex, triangleIndexSpec, if_pos h]
    rw [max_eq_right h.le, min_eq_left h.le, Nat.mul_comm (y - 1) y]
    ring
  · simp only [calculateVortexRadiiIndex, triangleIndexSpec,
      if_neg (by omega : ¬ x < y)]
    rw [max_eq_left h.le, min_eq_right h.le, Nat.mul_comm (x - 1) x]
    ring

/-- C1: for distinct indices `a ≠ b` below the population bound `N`,
`calculateVortexRadiiIndex a b = 3·(max·(max−1)/2 + min)`; consequently
the function is symmetric, injective over unordered pairs, and every
value lies below `3·N·(N−1)/2`. -/
theorem claim_c1 (N a b : ℕ) (ha : a < N) (hb : b < N) (hne : a ≠ b) :
    calculateVortexRadiiIndex a b = triangleIndexSpec a b ∧
    calculateVortexRadiiIndex a b = calculateVortexRadiiIndex b a ∧
    (∀ c d : ℕ, c < N → d < N → c ≠ d →
      calculateVortexRadiiIndex a b = calculateVortexRadiiIndex c d →
      min a b = min c d ∧ max a b = max c d) ∧
    calculateVortexRadiiIndex a b < 3 * (N * (N - 1) / 2) := by
  have hmm : min a b < max a b := min_lt_max.mpr hne
  obtain ⟨c, hc⟩ : ∃ c, max a b = c + 1 := ⟨max a b - 1, by omega⟩
  refine ⟨calculateVortexRadiiIndex_eq_spec a b hne, ?_, ?_, ?_⟩
  · rw [calculateVortexRadiiIndex_eq_spec a b hne,
      calculateVortexRadiiIndex_eq_spec b a (Ne.symm hne),
      triangleIndexSpec, triangleIndexSpec, max_comm b a, min_comm b a]
  · intro p q hp hq hpq heq
    rw [calculateVortexRadiiIndex_eq_spec a b hne,
      calculateVortexRadiiIndex_eq_spec p q hpq] at heq
    have hmm2 : min p q < max p q := min_lt_max.mpr hpq
    obtain ⟨e, he⟩ : ∃ e, max p q = e + 1 := ⟨max p q - 1, by omega⟩
    simp only [triangleIndexSpec] at heq
    rw [hc] at heq hmm
    rw [he] at heq hmm2
    simp only [Nat.add_sub_cancel] at heq
    have t1 := tri_two c
    have t2 := tri_two e
    have h7 : (c + 1) * c + 2 * min a b = (e + 1) * e + 2 * min p q := by omega
    obtain ⟨hce, hmins⟩ :=
      pair_decomp_unique (min a b) c (min p q) e (by omega) (by omega)
        (by omega)
    exact ⟨by omega, by rw [hc, he, hce]⟩
  · rw [calculateVortexRadiiIndex_eq_spec a b hne]
    have hmaxN : max a b < N := max_lt ha hb
    obtain ⟨f, hf⟩ : ∃ f, N = f + 1 := ⟨N - 1, by omega⟩
    rw [hc] at hmm hmaxN
    rw [hf] at hmaxN ⊢
    simp only [triangleIndexSpec, hc, Nat.add_sub_cancel]
    have t1 := tri_two c
    have t2 := tri_two f
    have hB : (c + 2) * (c + 1) ≤ (f + 1) * f :=
      Nat.mul_le_mul (by omega) (by omega)
    have hC : (c + 2) * (c + 1) = (c + 1) * c + (2 * c + 2) := by ring
    omega

/-- Witness for C1 at `N = 3`, `a = 0`, `b = 2`. -/
theorem claim_c1_witness :
    calculateVortexRadiiIndex 0 2 = triangleIndexSpec 0 2 ∧
    calculateVortexRadiiIndex 0 2 = calculateVortexRadiiIndex 2 0 ∧
    (∀ c d : ℕ, c < 3 → d < 3 → c ≠ d →
      calculateVortexRadiiIndex 0 2 = calculateVortexRadiiIndex c d →
      min 0 2 = min c d ∧ max 0 2 = max c d) ∧
    calculateVortexRadiiIndex 0 2 < 3 * (3 * (3 - 1) / 2) :=
  claim_c1 3 0 2 (by decide) (by decide) (by decide)

/-- Reading a table after a three-cell entry store. -/
theorem writeRadEntry_apply (cfg : Config) (tbl : ℕ → ℚ) (e : ℕ)
    (dx dy : ℚ) (k : ℕ) :
    writeRadEntry cfg tbl e dx dy k =
      if k = e then cfg.csqrt (dx ^ 2 + dy ^ 2)
      else if k = e + 1 then dx
      else if k = e + 2 then dy
      else tbl k := by
  unfold writeRadEntry
  simp only [Function.update_apply]
  split_ifs <;> first | rfl | omega

/-- A fold of entry stores leaves every cell outside the written triples
unchanged.  The payloads may read the evolving table. -/
theorem foldl_write_frame (cfg : Config) (l : List ℕ) (β : ℕ → ℕ)
    (fx fy : (ℕ → ℚ) → ℕ → ℚ) (tbl : ℕ → ℚ) (k : ℕ)
    (hk : ∀ j ∈ l, k ≠ β j ∧ k ≠ β j + 1 ∧ k ≠ β j + 2) :
    (l.foldl (fun t j => writeRadEntry cfg t (β j) (fx t j) (fy t j)) tbl) k
      = tbl k := by
  induction l generalizing tbl with
  | nil => rfl
  | cons j l ih =>
    rw [List.foldl_cons, ih _ (fun x hx => hk x (List.mem_cons_of_mem _ hx))]
    have h := hk j (List.mem_cons_self _ _)
    rw [writeRadEntry_apply, if_neg h.1, if_neg h.2.1, if_neg h.2.2]

/-- Value of a fold of entry stores at a triple whose writer `j0` is not
followed by any overlapping writer: the stored components and the
magnitude recomputed from them. -/
theorem foldl_write_value (cfg : Config) (l1 l2 : List ℕ) (β : ℕ → ℕ)
    (fx fy : ℕ → ℚ) (tbl : ℕ → ℚ) (j0 : ℕ)
    (hdisj : ∀ j ∈ l2, ∀ c1 < 3, ∀ c2 < 3, β j0 + c1 ≠ β j + c2) :
    ((l1 ++ j0 :: l2).foldl
        (fun t j => writeRadEntry cfg t (β j) (fx j) (fy j)) tbl) (β j0 + 1)
        = fx j0 ∧
    ((l1 ++ j0 :: l2).foldl
        (fun t j => writeRadEntry cfg t (β j) (fx j) (fy j)) tbl) (β j0 + 2)
        = fy j0 ∧
    ((l1 ++ j0 :: l2).foldl
        (fun t j => writeRadEntry cfg t (β j) (fx j) (fy j)) tbl) (β j0)
        = cfg.csqrt (fx j0 ^ 2 + fy j0 ^ 2) := by
  rw [List.foldl_append, List.foldl_cons]
  have hframe : ∀ c < 3,
      (l2.foldl (fun t j => writeRadEntry cfg t (β j) (fx j) (fy j))
        (writeRadEntry cfg ((l1).foldl
          (fun t j => writeRadEntry cfg t (β j) (fx j) (fy j)) tbl)
          (β j0) (fx j0) (fy j0))) (β j0 + c)
      = (writeRadEntry cfg ((l1).foldl
          (fun t j => writeRadEntry cfg t (β j) (fx j) (fy j)) tbl)
          (β j0) (fx j0) (fy j0)) (β j0 + c) := by
    intro c hc
    exact foldl_write_frame cfg l2 β (fun _ j => fx j) (fun _ j => fy j) _ _
      (fun j hj => ⟨by have := hdisj j hj c hc 0 (by omega); omega,
        by have := hdisj j hj c hc 1 (by omega); omega,
        by have := hdisj j hj c hc 2 (by omega); omega⟩)
  refine ⟨?_, ?_, ?_⟩
  · rw [hframe 1 (by omega), writeRadEntry_apply, if_neg (by omega),
      if_pos rfl]
  · rw [hframe 2 (by omega), writeRadEntry_apply, if_neg (by omega),
      if_neg (by omega), if_pos rfl]
  · have := hframe 0 (by omega)
    rw [Nat.add_zero] at this
    rw [this, writeRadEntry_apply, if_pos rfl]

/-- Splitting `List.range i` at an element `j0 < i`. -/
theorem range_split (j0 i : ℕ) (h : j0 < i) :
    ∃ l2 : List ℕ, List.range i = List.range j0 ++ j0 :: l2 ∧
      ∀ j ∈ l2, j0 < j ∧ j < i := by
  induction i with
  | zero => omega
  | succ s ih =>
    rcases Nat.lt_succ_iff_lt_or_eq.mp h with h' | h'
    · obtain ⟨l2, hl, hmem⟩ := ih h'
      refine ⟨l2 ++ [s], ?_, ?_⟩
      · rw [List.range_succ, hl]; simp
      · intro j hj
        rcases List.mem_append.mp hj with hj | hj
        · exact ⟨(hmem j hj).1, by have := (hmem j hj).2; omega⟩
        · simp only [List.mem_singleton] at hj; subst hj; omega
    · subst h'
      exact ⟨[], by rw [List.range_succ], by simp⟩

/-- The index function is symmetric on all arguments. -/
theorem vortIdx_symm (a b : ℕ) :
    calculateVortexRadiiIndex a b = calculateVortexRadiiIndex b a := by
  unfold calculateVortexRadiiIndex
  rcases Nat.lt_trichotomy a b with h | h | h
  · rw [if_pos h, if_neg (by omega)]
  · subst h; rfl
  · rw [if_neg (by omega), if_pos h]

/-- Every packed vortex-pair offset is a multiple of 3. -/
theorem vortIdx_dvd3 (a b : ℕ) : 3 ∣ calculateVortexRadiiIndex a b := by
  unfold calculateVortexRadiiIndex
  split
  · exact ⟨(b - 1) * b / 2 + a, by ring⟩
  · exact ⟨(a - 1) * a / 2 + b, by ring⟩

/-- Injectivity of the packed index over ordered pairs. -/
theorem vortIdx_inj (a b c d : ℕ) (hab : a < b) (hcd : c < d)
    (h : calculateVortexRadiiIndex a b = calculateVortexRadiiIndex c d) :
    a = c ∧ b = d := by
  rw [calculateVortexRadiiIndex_eq_spec a b (by omega),
      calculateVortexRadiiIndex_eq_spec c d (by omega)] at h
  simp only [triangleIndexSpec, max_eq_right hab.le, min_eq_left hab.le,
    max_eq_right hcd.le, min_eq_left hcd.le] at h
  obtain ⟨e, he⟩ : ∃ e, b = e + 1 := ⟨b - 1, by omega⟩
  obtain ⟨f, hf⟩ : ∃ f, d = f + 1 := ⟨d - 1, by omega⟩
  subst he; subst hf
  simp only [Nat.add_sub_cancel] at h
  have t1 := tri_two e
  have t2 := tri_two f
  have h7 : (e + 1) * e + 2 * a = (f + 1) * f + 2 * c := by omega
  obtain ⟨h1, h2⟩ := pair_decomp_unique a e c f (by omega) (by omega) h7
  omega

/-- Distinct ordered pairs occupy disjoint triples of cells. -/
theorem vortIdx_triple_ne (a b c d : ℕ) (hab : a < b) (hcd : c < d)
    (hne : ¬(a = c ∧ b = d)) (c1 c2 : ℕ) (h1 : c1 < 3) (h2 : c2 < 3) :
    calculateVortexRadiiIndex a b + c1 ≠ calculateVortexRadiiIndex c d + c2 := by
  intro h
  have d1 := vortIdx_dvd3 a b
  have d2 := vortIdx_dvd3 c d
  have hc : c1 = c2 := by omega
  have heq : calculateVortexRadiiIndex a b = calculateVortexRadiiIndex c d := by
    omega
  exact hne (vortIdx_inj a b c d hab hcd heq)

/-- Injectivity of the rectangular tracer-table index. -/
theorem tracerIdx_inj (n t v t2 v2 : ℕ) (hv : v < n) (hv2 : v2 < n)
    (h : calculateTracerRadiiIndex n t v = calculateTracerRadiiIndex n t2 v2) :
    t = t2 ∧ v = v2 := by
  unfold calculateTracerRadiiIndex at h
  have h' : t * n + v = t2 * n + v2 := by omega
  have htt : t = t2 := by
    rcases Nat.lt_trichotomy t t2 with hlt | heq | hgt
    · exfalso
      have e1 : (t + 1) * n = t * n + n := by ring
      have h4 : (t + 1) * n ≤ t2 * n := Nat.mul_le_mul_right n (by omega)
      omega
    · exact heq
    · exfalso
      have e1 : (t2 + 1) * n = t2 * n + n := by ring
      have h4 : (t2 + 1) * n ≤ t * n := Nat.mul_le_mul_right n (by omega)
      omega
  subst htt
  omega

/-- Every tracer-table offset is a multiple of 3. -/
theorem tracerIdx_dvd3 (n t v : ℕ) : 3 ∣ calculateTracerRadiiIndex n t v :=
  ⟨t * n + v, by unfold calculateTracerRadiiIndex; ring⟩

/-- Distinct (tracer, vortex) pairs occupy disjoint triples of cells. -/
theorem tracerIdx_triple_ne (n t v t2 v2 : ℕ) (hv : v < n) (hv2 : v2 < n)
    (hne : ¬(t = t2 ∧ v = v2)) (c1 c2 : ℕ) (h1 : c1 < 3) (h2 : c2 < 3) :
    calculateTracerRadiiIndex n t v + c1 ≠ calculateTracerRadiiIndex n t2 v2 + c2 := by
  intro h
  have d1 := tracerIdx_dvd3 n t v
  have d2 := tracerIdx_dvd3 n t2 v2
  have hc : c1 = c2 := by omega
  have heq : calculateTracerRadiiIndex n t v = calculateTracerRadiiIndex n t2 v2 := by
    omega
  exact hne (tracerIdx_inj n t v t2 v2 hv hv2 heq)

/-- A cell of the triple at `X` avoids the whole triple at `Y` when the
triples are disjoint. -/
theorem triple_avoid (X Y : ℕ) (h : ∀ c1 < 3, ∀ c2 < 3, X + c1 ≠ Y + c2)
    (k : ℕ) (hk : k = X ∨ k = X + 1 ∨ k = X + 2) :
    k ≠ Y ∧ k ≠ Y + 1 ∧ k ≠ Y + 2 := by
  have h00 := h 0 (by omega) 0 (by omega)
  have h01 := h 0 (by omega) 1 (by omega)
  have h02 := h 0 (by omega) 2 (by omega)
  have h10 := h 1 (by omega) 0 (by omega)
  have h11 := h 1 (by omega) 1 (by omega)
  have h12 := h 1 (by omega) 2 (by omega)
  have h20 := h 2 (by omega) 0 (by omega)
  have h21 := h 2 (by omega) 1 (by omega)
  have h22 := h 2 (by omega) 2 (by omega)
  rcases hk with rfl | rfl | rfl <;> omega

/-- C4: after `updateRadii_pythagorean`, every stored vortex pair entry
with indices `a < b` holds the component vector `position(b) −
position(a)` and the magnitude `sqrt(Δx²+Δy²)`, and every
(tracer, vortex) entry holds `vortexPosition − tracerPosition` with
magnitude `sqrt(Δx²+Δy²)`. -/
theorem claim_c4 (cfg : Config) (n m : ℕ) (vortexRadii tracerRadii : ℕ → ℚ)
    (vortices : ℕ → Vortex) (tracers : ℕ → Tracer)
    (hv : ∀ i, (vortices i).vIndex = i) :
    (∀ a b : ℕ, a < b → b < n →
      (updateRadii_pythagorean cfg n vortexRadii vortices tracerRadii tracers m).1
          (calculateVortexRadiiIndex a b + 1)
        = (vortices b).posX - (vortices a).posX ∧
      (updateRadii_pythagorean cfg n vortexRadii vortices tracerRadii tracers m).1
          (calculateVortexRadiiIndex a b + 2)
        = (vortices b).posY - (vortices a).posY ∧
      (updateRadii_pythagorean cfg n vortexRadii vortices tracerRadii tracers m).1
          (calculateVortexRadiiIndex a b)
        = cfg.csqrt (((vortices b).posX - (vortices a).posX) ^ 2
            + ((vortices b).posY - (vortices a).posY) ^ 2)) ∧
    (∀ t v : ℕ, t < m → v < n →
      (updateRadii_pythagorean cfg n vortexRadii vortices tracerRadii tracers m).2
          (calculateTracerRadiiIndex n t v + 1)
        = (vortices v).posX - (tracers t).posX ∧
      (updateRadii_pythagorean cfg n vortexRadii vortices tracerRadii tracers m).2
          (calculateTracerRadiiIndex n t v + 2)
        = (vortices v).posY - (tracers t).posY ∧
      (updateRadii_pythagorean cfg n vortexRadii vortices tracerRadii tracers m).2
          (calculateTracerRadiiIndex n t v)
        = cfg.csqrt (((vortices v).posX - (tracers t).posX) ^ 2
            + ((vortices v).posY - (tracers t).posY) ^ 2)) := by
  constructor
  · intro a b hab hbn
    have hfst : (updateRadii_pythagorean cfg n vortexRadii vortices tracerRadii
        tracers m).1
        = (List.range n).foldl (fun tbl i =>
            (List.range i).foldl (fun tbl2 j =>
              writeRadEntry cfg tbl2 (calculateVortexRadiiIndex i j)
                ((vortices i).posX - (vortices j).posX)
                ((vortices i).posY - (vortices j).posY)) tbl) vortexRadii := by
      simp only [updateRadii_pythagorean, hv]
    have houter : ∀ l : List ℕ, (∀ i ∈ l, b < i) → ∀ (tbl : ℕ → ℚ) (k : ℕ),
        (k = calculateVortexRadiiIndex a b ∨
         k = calculateVortexRadiiIndex a b + 1 ∨
         k = calculateVortexRadiiIndex a b + 2) →
        (l.foldl (fun tbl i =>
            (List.range i).foldl (fun tbl2 j =>
              writeRadEntry cfg tbl2 (calculateVortexRadiiIndex i j)
                ((vortices i).posX - (vortices j).posX)
                ((vortices i).posY - (vortices j).posY)) tbl) tbl) k
          = tbl k := by
      intro l
      induction l with
      | nil => intro _ tbl k _; rfl
      | cons i l ih =>
        intro hl tbl k hk
        rw [List.foldl_cons,
          ih (fun x hx => hl x (List.mem_cons_of_mem _ hx)) _ k hk]
        refine foldl_write_frame cfg (List.range i)
          (fun j => calculateVortexRadiiIndex i j) _ _ tbl k ?_
        intro j hj
        have hji : j < i := List.mem_range.mp hj
        have hbi : b < i := hl i (List.mem_cons_self _ _)
        refine triple_avoid _ _ ?_ k hk
        intro c1 hc1 c2 hc2
        show calculateVortexRadiiIndex a b + c1 ≠ calculateVortexRadiiIndex i j + c2
        rw [vortIdx_symm i j]
        exact vortIdx_triple_ne a b j i hab hji (by omega) c1 c2 hc1 hc2
    have hrow : ∀ tbl : ℕ → ℚ,
        ((List.range b).foldl (fun tbl2 j =>
            writeRadEntry cfg tbl2 (calculateVortexRadiiIndex b j)
              ((vortices b).posX - (vortices j).posX)
              ((vortices b).posY - (vortices j).posY)) tbl)
          (calculateVortexRadiiIndex b a + 1)
          = (vortices b).posX - (vortices a).posX ∧
        ((List.range b).foldl (fun tbl2 j =>
            writeRadEntry cfg tbl2 (calculateVortexRadiiIndex b j)
              ((vortices b).posX - (vortices j).posX)
              ((vortices b).posY - (vortices j).posY)) tbl)
          (calculateVortexRadiiIndex b a + 2)
          = (vortices b).posY - (vortices a).posY ∧
        ((List.range b).foldl (fun tbl2 j =>
            writeRadEntry cfg tbl2 (calculateVortexRadiiIndex b j)
              ((vortices b).posX - (vortices j).posX)
              ((vortices b).posY - (vortices j).posY)) tbl)
          (calculateVortexRadiiIndex b a)
          = cfg.csqrt (((vortices b).posX - (vortices a).posX) ^ 2
              + ((vortices b).posY - (vortices a).posY) ^ 2) := by
      intro tbl
      obtain ⟨l2a, hla, hmema⟩ := range_split a b hab
      rw [hla]
      exact foldl_write_value cfg (List.range a) l2a
        (fun j => calculateVortexRadiiIndex b j)
        (fun j => (vortices b).posX - (vortices j).posX)
        (fun j => (vortices b).posY - (vortices j).posY) tbl a
        (by
          intro j hj c1 hc1 c2 hc2
          show calculateVortexRadiiIndex b a + c1 ≠ calculateVortexRadiiIndex b j + c2
          rw [vortIdx_symm b a, vortIdx_symm b j]
          exact vortIdx_triple_ne a b j b hab (hmema j hj).2
            (by have := (hmema j hj).1; omega) c1 c2 hc1 hc2)
    obtain ⟨l2, hl2, hmem⟩ := range_split b n hbn
    rw [hfst, hl2, List.foldl_append, List.foldl_cons]
    refine ⟨?_, ?_, ?_⟩
    · rw [houter l2 (fun i hi => (hmem i hi).1) _ _ (Or.inr (Or.inl rfl)),
        vortIdx_symm a b]
      exact (hrow _).1
    · rw [houter l2 (fun i hi => (hmem i hi).1) _ _ (Or.inr (Or.inr rfl)),
        vortIdx_symm a b]
      exact (hrow _).2.1
    · rw [houter l2 (fun i hi => (hmem i hi).1) _ _ (Or.inl rfl),
        vortIdx_symm a b]
      exact (hrow _).2.2
  · intro t v htm hvn
    have hsnd : (updateRadii_pythagorean cfg n vortexRadii vortices tracerRadii
        tracers m).2
        = (List.range m).foldl (fun tbl tracerIndex =>
            (List.range n).foldl (fun tbl2 vortIndex =>
              writeRadEntry cfg tbl2 (calculateTracerRadiiIndex n tracerIndex vortIndex)
                ((vortices vortIndex).posX - (tracers tracerIndex).posX)
                ((vortices vortIndex).posY - (tracers tracerIndex).posY)) tbl)
            tracerRadii := by
      simp only [updateRadii_pythagorean]
    have houter : ∀ l : List ℕ, (∀ i ∈ l, t < i) → ∀ (tbl : ℕ → ℚ) (k : ℕ),
        (k = calculateTracerRadiiIndex n t v ∨
         k = calculateTracerRadiiIndex n t v + 1 ∨
         k = calculateTracerRadiiIndex n t v + 2) →
        (l.foldl (fun tbl tracerIndex =>
            (List.range n).foldl (fun tbl2 vortIndex =>
              writeRadEntry cfg tbl2 (calculateTracerRadiiIndex n tracerIndex vortIndex)
                ((vortices vortIndex).posX - (tracers tracerIndex).posX)
                ((vortices vortIndex).posY - (tracers tracerIndex).posY)) tbl)
            tbl) k
          = tbl k := by
      intro l
      induction l with
      | nil => intro _ tbl k _; rfl
      | cons i l ih =>
        intro hl tbl k hk
        rw [List.foldl_cons,
          ih (fun x hx => hl x (List.mem_cons_of_mem _ hx)) _ k hk]
        refine foldl_write_frame cfg (List.range n)
          (fun w => calculateTracerRadiiIndex n i w) _ _ tbl k ?_
        intro w hw
        have hwn : w < n := List.mem_range.mp hw
        have hti : t < i := hl i (List.mem_cons_self _ _)
        refine triple_avoid _ _ ?_ k hk
        intro c1 hc1 c2 hc2
        exact tracerIdx_triple_ne n t v i w hvn hwn (by omega) c1 c2 hc1 hc2
    have hrow : ∀ tbl : ℕ → ℚ,
        ((List.range n).foldl (fun tbl2 vortIndex =>
            writeRadEntry cfg tbl2 (calculateTracerRadiiIndex n t vortIndex)
              ((vortices vortIndex).posX - (tracers t).posX)
              ((vortices vortIndex).posY - (tracers t).posY)) tbl)
          (calculateTracerRadiiIndex n t v + 1)
          = (vortices v).posX - (tracers t).posX ∧
        ((List.range n).foldl (fun tbl2 vortIndex =>
            writeRadEntry cfg tbl2 (calculateTracerRadiiIndex n t vortIndex)
              ((vortices vortIndex).posX - (tracers t).posX)
              ((vortices vortIndex).posY - (tracers t).posY)) tbl)
          (calculateTracerRadiiIndex n t v + 2)
          = (vortices v).posY - (tracers t).posY ∧
        ((List.range n).foldl (fun tbl2 vortIndex =>
            writeRadEntry cfg tbl2 (calculateTracerRadiiIndex n t vortIndex)
              ((vortices vortIndex).posX - (tracers t).posX)
              ((vortices vortIndex).posY - (tracers t).posY)) tbl)
          (calculateTracerRadiiIndex n t v)
          = cfg.csqrt (((vortices v).posX - (tracers t).posX) ^ 2
              + ((vortices v).posY - (tracers t).posY) ^ 2) := by
      intro tbl
      obtain ⟨l2a, hla, hmema⟩ := range_split v n hvn
      rw [hla]
      exact foldl_write_value cfg (List.range v) l2a
        (fun w => calculateTracerRadiiIndex n t w)
        (fun w => (vortices w).posX - (tracers t).posX)
        (fun w => (vortices w).posY - (tracers t).posY) tbl v
        (by
          intro w hw c1 hc1 c2 hc2
          exact tracerIdx_triple_ne n t v t w hvn (hmema w hw).2
            (by have := (hmema w hw).1; omega) c1 c2 hc1 hc2)
    obtain ⟨l2, hl2, hmem⟩ := range_split t m htm
    rw [hsnd, hl2, List.foldl_append, List.foldl_cons]
    refine ⟨?_, ?_, ?_⟩
    · rw [houter l2 (fun i hi => (hmem i hi).1) _ _ (Or.inr (Or.inl rfl))]
      exact (hrow _).1
    · rw [houter l2 (fun i hi => (hmem i hi).1) _ _ (Or.inr (Or.inr rfl))]
      exact (hrow _).2.1
    · rw [houter l2 (fun i hi => (hmem i hi).1) _ _ (Or.inl rfl)]
      exact (hrow _).2.2

/-- Witness for C4 at a concrete two-vortex, one-tracer configuration. -/
theorem claim_c4_witness :
    (∀ a b : ℕ, a < b → b < 2 →
      (updateRadii_pythagorean cfgW 2 (fun _ => 0) vortFamW (fun _ => 0) trcFamW 1).1
          (calculateVortexRadiiIndex a b + 1)
        = (vortFamW b).posX - (vortFamW a).posX ∧
      (updateRadii_pythagorean cfgW 2 (fun _ => 0) vortFamW (fun _ => 0) trcFamW 1).1
          (calculateVortexRadiiIndex a b + 2)
        = (vortFamW b).posY - (vortFamW a).posY ∧
      (updateRadii_pythagorean cfgW 2 (fun _ => 0) vortFamW (fun _ => 0) trcFamW 1).1
          (calculateVortexRadiiIndex a b)
        = cfgW.csqrt (((vortFamW b).posX - (vortFamW a).posX) ^ 2
            + ((vortFamW b).posY - (vortFamW a).posY) ^ 2)) ∧
    (∀ t v : ℕ, t < 1 → v < 2 →
      (updateRadii_pythagorean cfgW 2 (fun _ => 0) vortFamW (fun _ => 0) trcFamW 1).2
          (calculateTracerRadiiIndex 2 t v + 1)
        = (vortFamW v).posX - (trcFamW t).posX ∧
      (updateRadii_pythagorean cfgW 2 (fun _ => 0) vortFamW (fun _ => 0) trcFamW 1).2
          (calculateTracerRadiiIndex 2 t v + 2)
        = (vortFamW v).posY - (trcFamW t).posY ∧
      (updateRadii_pythagorean cfgW 2 (fun _ => 0) vortFamW (fun _ => 0) trcFamW 1).2
          (calculateTracerRadiiIndex 2 t v)
        = cfgW.csqrt (((vortFamW v).posX - (trcFamW t).posX) ^ 2
            + ((vortFamW v).posY - (trcFamW t).posY) ^ 2)) :=
  claim_c4 cfgW 2 1 (fun _ => 0) (fun _ => 0) vortFamW trcFamW (fun _ => rfl)

/-- A fold whose step adds a per-index pair to the accumulator computes
the componentwise sum over the range. -/
theorem foldl_pair_sum (g : ℕ → ℚ × ℚ) (f : ℚ × ℚ → ℕ → ℚ × ℚ)
    (hf : ∀ acc j, f acc j = (acc.1 + (g j).1, acc.2 + (g j).2)) :
    ∀ (N : ℕ) (init : ℚ × ℚ),
      (List.range N).foldl f init
        = (init.1 + ∑ j in Finset.range N, (g j).1,
           init.2 + ∑ j in Finset.range N, (g j).2) := by
  intro N
  induction N with
  | zero => intro init; simp
  | succ k ih =>
    intro init
    rw [List.range_succ, List.foldl_append, List.foldl_cons, List.foldl_nil,
      ih, hf]
    simp only [Finset.sum_range_succ, Prod.mk.injEq]
    constructor <;> ring

/-- C5: each force evaluator is the double sum, over source vortices and
the 9 periodic images, of the per-image contribution: skipped exactly
when the image radius exceeds the domain width (for tracers additionally
when `TEST_CASE = 6` and the radius is below 0.1), and otherwise adding
`(Δy/r)·vmag` to the x-velocity and `(−Δx/r)·vmag` to the y-velocity with
`vmag = intensity/(2π·r)`; a vortex's own index is always excluded. -/
theorem claim_c5 (cfg : Config) (n : ℕ) (vort : Vortex)
    (vortices : ℕ → Vortex) (rads tracerRads : ℕ → ℚ) (t : ℕ) :
    calculateVel_vortex cfg n vort vortices rads (0, 0)
      = (∑ j in Finset.range n, ∑ d in Finset.range 9,
           (if vort.vIndex = j then 0
            else (specVortexImageVel cfg vort (vortices j) rads d).1),
         ∑ j in Finset.range n, ∑ d in Finset.range 9,
           (if vort.vIndex = j then 0
            else (specVortexImageVel cfg vort (vortices j) rads d).2)) ∧
    calculateVel_tracer cfg n t tracerRads vortices (0, 0)
      = (∑ v in Finset.range n, ∑ d in Finset.range 9,
           (specTracerImageVel cfg n t v tracerRads (vortices v).intensity d).1,
         ∑ v in Finset.range n, ∑ d in Finset.range 9,
           (specTracerImageVel cfg n t v tracerRads (vortices v).intensity d).2) := by
  constructor
  · have hinner : ∀ j, vort.vIndex ≠ j → ∀ acc : ℚ × ℚ,
        (List.range 9).foldl (fun acc2 domain =>
          let radiiIndex := calculateVortexRadiiIndex vort.vIndex (vortices j).vIndex
          let xRad := (if vort.vIndex < (vortices j).vIndex then rads (radiiIndex + 1)
                       else -rads (radiiIndex + 1)) + domainOffsetX cfg domain
          let yRad := (if vort.vIndex < (vortices j).vIndex then rads (radiiIndex + 2)
                       else -rads (radiiIndex + 2)) + domainOffsetY cfg domain
          let rad := if domain = 0 then rads radiiIndex
                     else cfg.csqrt (xRad ^ 2 + yRad ^ 2)
          if cfg.DOMAIN_SIZE_X < rad then acc2
          else
            let vmag := velocityFunc cfg (vortices j).intensity rad
            (acc2.1 + yRad / rad * vmag, acc2.2 + -xRad / rad * vmag)) acc
        = (acc.1 + ∑ d in Finset.range 9,
              (specVortexImageVel cfg vort (vortices j) rads d).1,
           acc.2 + ∑ d in Finset.range 9,
              (specVortexImageVel cfg vort (vortices j) rads d).2) := by
      intro j _ acc
      refine foldl_pair_sum (fun d => specVortexImageVel cfg vort (vortices j) rads d)
        _ ?_ 9 acc
      intro acc2 d
      simp only [specVortexImageVel, velocityFunc]
      split_ifs <;> simp
    unfold calculateVel_vortex
    rw [foldl_pair_sum (fun j =>
        if vort.vIndex = j then (0, 0)
        else (∑ d in Finset.range 9, (specVortexImageVel cfg vort (vortices j) rads d).1,
              ∑ d in Finset.range 9, (specVortexImageVel cfg vort (vortices j) rads d).2))
      _ ?_ n (0, 0)]
    · simp only [zero_add, Prod.mk.injEq]
      constructor
      · refine Finset.sum_congr rfl ?_
        intro j _
        by_cases h : vort.vIndex = j
        · simp [h]
        · simp [h]
      · refine Finset.sum_congr rfl ?_
        intro j _
        by_cases h : vort.vIndex = j
        · simp [h]
        · simp [h]
    · intro acc j
      by_cases h : vort.vIndex = j
      · simp [h]
      · simp only [if_neg h]
        exact hinner j h acc
  · have hinner : ∀ v : ℕ, ∀ acc : ℚ × ℚ,
        (List.range 9).foldl (fun acc2 domain =>
          let intRadIndex := calculateTracerRadiiIndex n t v
          let xRad := tracerRads (intRadIndex + 1) + domainOffsetX cfg domain
          let yRad := tracerRads (intRadIndex + 2) + domainOffsetY cfg domain
          let rad := if domain = 0 then tracerRads intRadIndex
                     else cfg.csqrt (xRad ^ 2 + yRad ^ 2)
          if cfg.DOMAIN_SIZE_X < rad ∨ (cfg.TEST_CASE = 6 ∧ rad < 1 / 10) then acc2
          else
            let vmag := velocityFunc cfg (vortices v).intensity rad
            (acc2.1 + yRad / rad * vmag, acc2.2 + -xRad / rad * vmag)) acc
        = (acc.1 + ∑ d in Finset.range 9,
              (specTracerImageVel cfg n t v tracerRads (vortices v).intensity d).1,
           acc.2 + ∑ d in Finset.range 9,
              (specTracerImageVel cfg n t v tracerRads (vortices v).intensity d).2) := by
      intro v acc
      refine foldl_pair_sum
        (fun d => specTracerImageVel cfg n t v tracerRads (vortices v).intensity d)
        _ ?_ 9 acc
      intro acc2 d
      simp only [specTracerImageVel, velocityFunc]
      split_ifs <;> simp
    unfold calculateVel_tracer
    rw [foldl_pair_sum (fun v =>
        (∑ d in Finset.range 9,
           (specTracerImageVel cfg n t v tracerRads (vortices v).intensity d).1,
         ∑ d in Finset.range 9,
           (specTracerImageVel cfg n t v tracerRads (vortices v).intensity d).2))
      _ ?_ n (0, 0)]
    · simp
    · intro acc v
      exact hinner v acc

/-- Bounds of the C `fmod` on a negative argument and positive modulus:
the result lies in `(-W, 0]`. -/
theorem cfmod_neg_bounds (x W : ℚ) (hW : 0 < W) (hx : x < 0) :
    -W < cfmod x W ∧ cfmod x W ≤ 0 := by
  have hq : x / W < 0 := div_neg_of_neg_of_pos hx hW
  have e : cfmod x W = W * (x / W - (⌈x / W⌉ : ℚ)) := by
    rw [cfmod, ratTrunc, if_pos hq, mul_sub, mul_comm W (x / W),
      div_mul_cancel₀ x (ne_of_gt hW)]
  constructor
  · have h1 : (⌈x / W⌉ : ℚ) < x / W + 1 := Int.ceil_lt_add_one _
    have h2 : (-1 : ℚ) < x / W - (⌈x / W⌉ : ℚ) := by linarith
    have h3 := mul_lt_mul_of_pos_left h2 hW
    rw [mul_neg_one] at h3
    rw [e]; exact h3
  · have h2 : x / W ≤ (⌈x / W⌉ : ℚ) := Int.le_ceil _
    have h3 : x / W - (⌈x / W⌉ : ℚ) ≤ 0 := by linarith
    rw [e]
    exact mul_nonpos_of_nonneg_of_nonpos hW.le h3

/-- Bounds of the C `fmod` on a nonnegative argument and positive
modulus: the result lies in `[0, W)`. -/
theorem cfmod_nonneg_bounds (x W : ℚ) (hW : 0 < W) (hx : 0 ≤ x) :
    0 ≤ cfmod x W ∧ cfmod x W < W := by
  have hq : ¬ (x / W < 0) := not_lt.mpr (div_nonneg hx hW.le)
  have e : cfmod x W = W * (x / W - (⌊x / W⌋ : ℚ)) := by
    rw [cfmod, ratTrunc, if_neg hq, mul_sub, mul_comm W (x / W),
      div_mul_cancel₀ x (ne_of_gt hW)]
  constructor
  · have h1 : (⌊x / W⌋ : ℚ) ≤ x / W := Int.floor_le _
    have h2 : (0 : ℚ) ≤ x / W - (⌊x / W⌋ : ℚ) := by linarith
    rw [e]
    exact mul_nonneg hW.le h2
  · have h1 : x / W < (⌊x / W⌋ : ℚ) + 1 := Int.lt_floor_add_one _
    have h2 : x / W - (⌊x / W⌋ : ℚ) < 1 := by linarith
    have h3 := mul_lt_mul_of_pos_left h2 hW
    rw [mul_one] at h3
    rw [e]; exact h3

/-- One application of the wrap body lands in the closed interval
`[0, W]` (the right endpoint is attainable). -/
theorem wrapCoordinate_bounds (W x : ℚ) (hW : 0 < W) :
    0 ≤ wrapCoordinate W x ∧ wrapCoordinate W x ≤ W := by
  unfold wrapCoordinate
  split_ifs with h1 h2
  · obtain ⟨hlo, hhi⟩ := cfmod_neg_bounds x W hW h1
    constructor <;> linarith
  · obtain ⟨hlo, hhi⟩ := cfmod_nonneg_bounds x W hW (by linarith)
    constructor <;> linarith
  · constructor <;> linarith

/-- The wrap body leaves an in-range coordinate unchanged. -/
theorem wrapCoordinate_id (W x : ℚ) (h0 : 0 ≤ x) (h1 : x < W) :
    wrapCoordinate W x = x := by
  unfold wrapCoordinate
  rw [if_neg (by linarith), if_neg (by linarith)]

/-- C9 counterexample: with unit domain, a vortex already at `x = 1 =
DOMAIN_SIZE_X` is left at `x = 1` by `wrapPositions`, which is not in the
half-open interval `[0, DOMAIN_SIZE_X)` the claim asserts. -/
theorem claim_c9_counterexample :
    ((wrapPositions cfgW 1 (fun _ => vortW) 0 (fun _ => trcW)).1 0).posX = 1 ∧
    ¬ ((wrapPositions cfgW 1 (fun _ => vortW) 0 (fun _ => trcW)).1 0).posX
        < cfgW.DOMAIN_SIZE_X := by
  constructor
  · decide
  · decide

/-- C9 (amended): one application of `wrapPositions` yields coordinates
in the closed intervals `[0, DOMAIN_SIZE_X]` and `[0, DOMAIN_SIZE_Y]`
(the right endpoint is attainable: an x-coordinate equal to
`DOMAIN_SIZE_X` is kept, and `x = -DOMAIN_SIZE_X` wraps to it), and a
position whose coordinates already lie in the half-open ranges is left
unchanged. -/
theorem claim_c9_amended (cfg : Config) (n m : ℕ) (vorts : ℕ → Vortex)
    (tracers : ℕ → Tracer) (hx : 0 < cfg.DOMAIN_SIZE_X)
    (hy : 0 < cfg.DOMAIN_SIZE_Y) :
    (∀ i, i < n →
      (0 ≤ ((wrapPositions cfg n vorts m tracers).1 i).posX ∧
        ((wrapPositions cfg n vorts m tracers).1 i).posX ≤ cfg.DOMAIN_SIZE_X) ∧
      (0 ≤ ((wrapPositions cfg n vorts m tracers).1 i).posY ∧
        ((wrapPositions cfg n vorts m tracers).1 i).posY ≤ cfg.DOMAIN_SIZE_Y)) ∧
    (∀ i, i < m →
      (0 ≤ ((wrapPositions cfg n vorts m tracers).2 i).posX ∧
        ((wrapPositions cfg n vorts m tracers).2 i).posX ≤ cfg.DOMAIN_SIZE_X) ∧
      (0 ≤ ((wrapPositions cfg n vorts m tracers).2 i).posY ∧
        ((wrapPositions cfg n vorts m tracers).2 i).posY ≤ cfg.DOMAIN_SIZE_Y)) ∧
    (∀ i, i < n → 0 ≤ (vorts i).posX → (vorts i).posX < cfg.DOMAIN_SIZE_X →
      0 ≤ (vorts i).posY → (vorts i).posY < cfg.DOMAIN_SIZE_Y →
      (wrapPositions cfg n vorts m tracers).1 i = vorts i) ∧
    (∀ i, i < m → 0 ≤ (tracers i).posX → (tracers i).posX < cfg.DOMAIN_SIZE_X →
      0 ≤ (tracers i).posY → (tracers i).posY < cfg.DOMAIN_SIZE_Y →
      (wrapPositions cfg n vorts m tracers).2 i = tracers i) := by
  refine ⟨?_, ?_, ?_, ?_⟩
  · intro i hi
    simp only [wrapPositions, if_pos hi]
    exact ⟨wrapCoordinate_bounds _ _ hx, wrapCoordinate_bounds _ _ hy⟩
  · intro i hi
    simp only [wrapPositions, if_pos hi]
    exact ⟨wrapCoordinate_bounds _ _ hx, wrapCoordinate_bounds _ _ hy⟩
  · intro i hi hx0 hx1 hy0 hy1
    simp only [wrapPositions, if_pos hi]
    rw [wrapCoordinate_id _ _ hx0 hx1, wrapCoordinate_id _ _ hy0 hy1]
  · intro i hi hx0 hx1 hy0 hy1
    simp only [wrapPositions, if_pos hi]
    rw [wrapCoordinate_id _ _ hx0 hx1, wrapCoordinate_id _ _ hy0 hy1]

/-- Witness for the amended C9 at the unit-domain configuration. -/
theorem claim_c9_witness :
    (∀ i, i < 1 →
      (0 ≤ ((wrapPositions cfgW 1 (fun _ => vortW) 1 (fun _ => trcW)).1 i).posX ∧
        ((wrapPositions cfgW 1 (fun _ => vortW) 1 (fun _ => trcW)).1 i).posX
          ≤ cfgW.DOMAIN_SIZE_X) ∧
      (0 ≤ ((wrapPositions cfgW 1 (fun _ => vortW) 1 (fun _ => trcW)).1 i).posY ∧
        ((wrapPositions cfgW 1 (fun _ => vortW) 1 (fun _ => trcW)).1 i).posY
          ≤ cfgW.DOMAIN_SIZE_Y)) ∧
    (∀ i, i < 1 →
      (0 ≤ ((wrapPositions cfgW 1 (fun _ => vortW) 1 (fun _ => trcW)).2 i).posX ∧
        ((wrapPositions cfgW 1 (fun _ => vortW) 1 (fun _ => trcW)).2 i).posX
          ≤ cfgW.DOMAIN_SIZE_X) ∧
      (0 ≤ ((wrapPositions cfgW 1 (fun _ => vortW) 1 (fun _ => trcW)).2 i).posY ∧
        ((wrapPositions cfgW 1 (fun _ => vortW) 1 (fun _ => trcW)).2 i).posY
          ≤ cfgW.DOMAIN_SIZE_Y)) ∧
    (∀ i, i < 1 → 0 ≤ ((fun _ => vortW) i).posX →
      ((fun _ => vortW) i).posX < cfgW.DOMAIN_SIZE_X →
      0 ≤ ((fun _ => vortW) i).posY →
      ((fun _ => vortW) i).posY < cfgW.DOMAIN_SIZE_Y →
      (wrapPositions cfgW 1 (fun _ => vortW) 1 (fun _ => trcW)).1 i = vortW) ∧
    (∀ i, i < 1 → 0 ≤ ((fun _ => trcW) i).posX →
      ((fun _ => trcW) i).posX < cfgW.DOMAIN_SIZE_X →
      0 ≤ ((fun _ => trcW) i).posY →
      ((fun _ => trcW) i).posY < cfgW.DOMAIN_SIZE_Y →
      (wrapPositions cfgW 1 (fun _ => vortW) 1 (fun _ => trcW)).2 i = trcW) :=
  claim_c9_amended cfgW 1 1 (fun _ => vortW) (fun _ => trcW)
    (by norm_num [cfgW]) (by norm_num [cfgW])

set_option maxRecDepth 8000 in
/-- C2 (divergence): in a stage-4 vortex task over the pair `(0, 1)` with
stage velocity `(1, 0)` and unit timestep, the table entry's Δy component
ends at `0 = Δy − xVel·timestep` (main.c line 488 reuses `xVel`), not at
the value `Δy − yVel·timestep = 1` required by the claim. -/
theorem claim_c2_bug :
    calculateVel_vortex cfgC2 2 (vortsC2 0) vortsC2 radsC2 (0, 0) = (1, 0) ∧
    (stepForwardVortexRK4 cfgC2 2 vortsC2 0 radsC2 radsC2 (fun _ => 0) 0 4).workingRadii
        (calculateVortexRadiiIndex 0 1 + 1)
      = radsC2 (calculateVortexRadiiIndex 0 1 + 1)
        - (calculateVel_vortex cfgC2 2 (vortsC2 0) vortsC2 radsC2 (0, 0)).1
          * cfgC2.timestep ∧
    (stepForwardVortexRK4 cfgC2 2 vortsC2 0 radsC2 radsC2 (fun _ => 0) 0 4).workingRadii
        (calculateVortexRadiiIndex 0 1 + 2) = 0 ∧
    radsC2 (calculateVortexRadiiIndex 0 1 + 2)
      - (calculateVel_vortex cfgC2 2 (vortsC2 0) vortsC2 radsC2 (0, 0)).2
        * cfgC2.timestep = 1 ∧
    (0 : ℚ) ≠ 1 := by
  refine ⟨?_, ?_, ?_, ?_, by norm_num⟩ <;>
    simp only [calculateVel_vortex, stepForwardVortexRK4, writeRadEntry, cfgC2,
      vortsC2, radsC2,
      domainOffsetX, domainOffsetY, velocityFunc, calculateVortexRadiiIndex,
      show List.range 2 = [0, 1] from rfl,
      show List.range 9 = [0, 1, 2, 3, 4, 5, 6, 7, 8] from rfl,
      show List.range 0 = ([] : List ℕ) from rfl,
      List.foldl_cons, List.foldl_nil, Function.update_apply] <;>
    norm_num [radsC2]

/-- C3 (divergence): deleting dense index 1 from a population of 5 leaves
the surviving pair with old indices `(0, 3)` (new indices `(0, 2)`)
holding the value 15 that belonged to old pair `(2, 3)`, not the value 9
it held before the deletion; the population count still drops to 4.  The
misplaced `destPtr` guard of main.c line 702 reuses the first `memmove`
destination for the second one on every non-final row. -/
theorem claim_c3_bug :
    exTableC3 (calculateVortexRadiiIndex 0 3) = 9 ∧
    (deleteVortex 5 1 exTableC3 vortsC2 exTableC3 0).vortexRads
        (calculateVortexRadiiIndex 0 2) = 15 ∧
    (deleteVortex 5 1 exTableC3 vortsC2 exTableC3 0).numDriverVorts = 4 ∧
    ((15 : ℚ) ≠ 9) := by
  refine ⟨?_, ?_, ?_, by norm_num⟩ <;>
    simp only [deleteVortex, deleteVortexRadsRow, memmoveQ, exTableC3,
      calculateVortexRadiiIndex, calculateTracerRadiiIndex,
      show List.range' 1 3 = [1, 2, 3] from rfl,
      show List.range 0 = ([] : List ℕ) from rfl,
      List.foldl_cons, List.foldl_nil] <;>
    norm_num

/-- Unfolding facts for one `spawnVortex` call: the count and ID counter
advance by one, other slots are untouched, and the new slot at the old
count has `vIndex` equal to its position, `vID` equal to the old
`nextVortID`, and an intensity of magnitude at least the floor. -/
theorem spawnVortex_facts (draw : ℕ → ℚ)
    (H : ∀ s : ℕ, ∃ k : ℕ, minIntensity ≤ |draw (s + k)|) (ts : ℤ)
    (st : VortArray) :
    (spawnVortex draw H ts st).n = st.n + 1 ∧
    (spawnVortex draw H ts st).nextVortID = st.nextVortID + 1 ∧
    (∀ i, i ≠ st.n → (spawnVortex draw H ts st).vorts i = st.vorts i) ∧
    ((spawnVortex draw H ts st).vorts st.n).vIndex = st.n ∧
    ((spawnVortex draw H ts st).vorts st.n).vID = st.nextVortID ∧
    minIntensity ≤ |((spawnVortex draw H ts st).vorts st.n).intensity| ∧
    ((spawnVortex draw H ts st).vorts st.n).intensity ≠ 0 := by
  refine ⟨rfl, rfl, ?_, ?_, ?_, ?_, ?_⟩
  · intro i hi
    simp [spawnVortex, Function.update_apply, hi]
  · simp [spawnVortex, randomizeVortex]
  · simp [spawnVortex, randomizeVortex]
  · simp only [spawnVortex, randomizeVortex, Function.update_same]
    exact Nat.find_spec (H (st.counter + 3))
  · intro h0
    have hspec := Nat.find_spec (H (st.counter + 3))
    simp only [spawnVortex, randomizeVortex, Function.update_same] at h0
    rw [h0] at hspec
    norm_num [minIntensity] at hspec

/-- C8: spawning `k` vortices increases the population count by exactly
`k`, leaves existing vortices untouched, appends the new vortices at the
end of the dense range with `vIndex` equal to their array position (so
`vIndex` stays the identity on `[0, N+k)`), assigns fresh strictly
increasing `vID`s continuing from `nextVortID`, and gives every spawned
vortex an intensity of magnitude at least the floor, in particular
nonzero. -/
theorem claim_c8 (draw : ℕ → ℚ)
    (H : ∀ s : ℕ, ∃ k : ℕ, minIntensity ≤ |draw (s + k)|) (ts : ℤ) (k : ℕ)
    (st : VortArray) (hv : ∀ i, i < st.n → (st.vorts i).vIndex = i) :
    (spawnVorts draw H ts k st).n = st.n + k ∧
    (∀ i, i < st.n → (spawnVorts draw H ts k st).vorts i = st.vorts i) ∧
    (∀ i, i < st.n + k → ((spawnVorts draw H ts k st).vorts i).vIndex = i) ∧
    (∀ j, j < k →
      ((spawnVorts draw H ts k st).vorts (st.n + j)).vID = st.nextVortID + j) ∧
    (spawnVorts draw H ts k st).nextVortID = st.nextVortID + k ∧
    (∀ j, j < k →
      minIntensity ≤ |((spawnVorts draw H ts k st).vorts (st.n + j)).intensity| ∧
      ((spawnVorts draw H ts k st).vorts (st.n + j)).intensity ≠ 0) := by
  induction k generalizing st with
  | zero =>
    refine ⟨rfl, fun i _ => rfl, ?_, ?_, rfl, ?_⟩
    · intro i hi
      exact hv i (by omega)
    · intro j hj; omega
    · intro j hj; omega
  | succ k ih =>
    obtain ⟨hn1, hid1, hold1, hvidx1, hvid1, hint1, hnz1⟩ :=
      spawnVortex_facts draw H ts st
    have hv' : ∀ i, i < (spawnVortex draw H ts st).n →
        ((spawnVortex draw H ts st).vorts i).vIndex = i := by
      intro i hi
      rw [hn1] at hi
      rcases Nat.lt_succ_iff_lt_or_eq.mp hi with h | h
      · rw [hold1 i (by omega)]
        exact hv i h
      · subst h; exact hvidx1
    obtain ⟨ihn, ihold, ihvidx, ihvid, ihid, ihint⟩ :=
      ih (spawnVortex draw H ts st) hv'
    have hstep : spawnVorts draw H ts (k + 1) st
        = spawnVorts draw H ts k (spawnVortex draw H ts st) := rfl
    rw [hstep]
    refine ⟨by rw [ihn, hn1]; omega, ?_, ?_, ?_, by rw [ihid, hid1]; omega, ?_⟩
    · intro i hi
      rw [ihold i (by omega), hold1 i (by omega)]
    · intro i hi
      exact ihvidx i (by omega)
    · intro j hj
      rcases Nat.eq_zero_or_pos j with rfl | hj0
      · rw [Nat.add_zero,
          ihold st.n (by rw [hn1]; omega), hvid1]
        omega
      · obtain ⟨j2, rfl⟩ : ∃ j2, j = j2 + 1 := ⟨j - 1, by omega⟩
        have := ihvid j2 (by omega)
        rw [hn1] at this
        rw [show st.n + (j2 + 1) = st.n + 1 + j2 by omega, this, hid1]
        omega
    · intro j hj
      rcases Nat.eq_zero_or_pos j with rfl | hj0
      · rw [Nat.add_zero, ihold st.n (by rw [hn1]; omega)]
        exact ⟨hint1, hnz1⟩
      · obtain ⟨j2, rfl⟩ : ∃ j2, j = j2 + 1 := ⟨j - 1, by omega⟩
        have := ihint j2 (by omega)
        rw [hn1] at this
        rw [show st.n + (j2 + 1) = st.n + 1 + j2 by omega]
        exact this

/-- Witness for C8: spawning two vortices onto a one-vortex state with a
constant unit RNG stream. -/
theorem claim_c8_witness :
    (spawnVorts drawW (fun s => ⟨0, by norm_num [drawW, minIntensity]⟩) 0 2 vortArrW).n
      = vortArrW.n + 2 ∧
    (∀ i, i < vortArrW.n →
      (spawnVorts drawW (fun s => ⟨0, by norm_num [drawW, minIntensity]⟩) 0 2 vortArrW).vorts i
        = vortArrW.vorts i) ∧
    (∀ i, i < vortArrW.n + 2 →
      ((spawnVorts drawW (fun s => ⟨0, by norm_num [drawW, minIntensity]⟩) 0 2 vortArrW).vorts i).vIndex
        = i) ∧
    (∀ j, j < 2 →
      ((spawnVorts drawW (fun s => ⟨0, by norm_num [drawW, minIntensity]⟩) 0 2 vortArrW).vorts
          (vortArrW.n + j)).vID
        = vortArrW.nextVortID + j) ∧
    (spawnVorts drawW (fun s => ⟨0, by norm_num [drawW, minIntensity]⟩) 0 2 vortArrW).nextVortID
      = vortArrW.nextVortID + 2 ∧
    (∀ j, j < 2 →
      minIntensity ≤
        |((spawnVorts drawW (fun s => ⟨0, by norm_num [drawW, minIntensity]⟩) 0 2 vortArrW).vorts
            (vortArrW.n + j)).intensity| ∧
      ((spawnVorts drawW (fun s => ⟨0, by norm_num [drawW, minIntensity]⟩) 0 2 vortArrW).vorts
          (vortArrW.n + j)).intensity ≠ 0) :=
  claim_c8 drawW (fun s => ⟨0, by norm_num [drawW, minIntensity]⟩) 0 2 vortArrW
    (fun i _ => rfl)

/-- The sign function takes value 1 on positives. -/
theorem sgnQ_pos {x : ℚ} (h : 0 < x) : sgnQ x = 1 := by
  rw [sgnQ, if_pos h]

/-- The sign function takes value -1 on negatives. -/
theorem sgnQ_neg {x : ℚ} (h : x < 0) : sgnQ x = -1 := by
  rw [sgnQ, if_neg (by linarith), if_pos h]

/-- For nonzero arguments the `x / fabs(x)` sign of the source equals the
claims' sign function. -/
theorem csign_eq_sgnQ (x : ℚ) (hx : x ≠ 0) : csign x = sgnQ x := by
  unfold csign
  rcases lt_or_gt_of_ne hx with h | h
  · rw [abs_of_neg h, sgnQ_neg h, div_neg, div_self hx]
  · rw [abs_of_pos h, sgnQ_pos h, div_self hx]

/-- `mergeIntensities` computes the claimed formula
`sign(int1+int2)·sqrt(|sign(int1)·int1² + sign(int2)·int2²|)` whenever
both intensities and their sum are nonzero. -/
theorem mergeIntensities_eq (cfg : Config) (int1 int2 : ℚ) (h1 : int1 ≠ 0)
    (h2 : int2 ≠ 0) (hs : int1 + int2 ≠ 0) :
    mergeIntensities cfg int1 int2
      = sgnQ (int1 + int2)
        * cfg.csqrt |sgnQ int1 * int1 ^ 2 + sgnQ int2 * int2 ^ 2| := by
  simp only [mergeIntensities, csign_eq_sgnQ int1 h1, csign_eq_sgnQ int2 h2]
  rcases lt_or_gt_of_ne hs with h | h
  · rw [if_neg (by linarith : ¬ 0 < int1 + int2), sgnQ_neg h]
    ring
  · rw [if_pos h, sgnQ_pos h]
    ring

/-- `deleteVortex` leaves every vortex slot strictly below the deletion
index untouched. -/
theorem deleteVortex_vorts_lt (n d : ℕ) (vr : ℕ → ℚ) (vorts : ℕ → Vortex)
    (tr : ℕ → ℚ) (nt : ℕ) (i : ℕ) (hi : i < d) :
    (deleteVortex n d vr vorts tr nt).vorts i = vorts i := by
  simp only [deleteVortex]
  rw [if_neg (by omega), if_neg (by omega)]

/-- `deleteVortex` decrements the population count by one. -/
theorem deleteVortex_count (n d : ℕ) (vr : ℕ → ℚ) (vorts : ℕ → Vortex)
    (tr : ℕ → ℚ) (nt : ℕ) :
    (deleteVortex n d vr vorts tr nt).numDriverVorts = n - 1 := rfl

/-- C7: when a merge fires on a pair `(v1, v2)` whose cached distance is
below the merge radius, the surviving vortex `v1` gets the
`|intensity|`-weighted average position and the intensity
`sign(int1+int2)·sqrt(|sign(int1)·int1² + sign(int2)·int2²|)`; `v2` is
reinitialized in place (fresh `vID`, floor-respecting intensity, count
and budget bookkeeping) when spawn budget remains, and otherwise deleted
so the population decreases by one. -/
theorem claim_c7 (cfg : Config) (draw : ℕ → ℚ)
    (H : ∀ s : ℕ, ∃ k : ℕ, minIntensity ≤ |draw (s + k)|)
    (m : ℕ) (ts : ℤ) (st : MergeState) (v1 v2 spawnsLeft : ℕ)
    (h12 : v1 < v2) (hn : v2 < st.numDriverVorts)
    (hfire : st.vortexRadii (calculateVortexRadiiIndex v1 v2)
      < cfg.VORTEX_MERGE_RADIUS)
    (hint1 : (st.vorts v1).intensity ≠ 0)
    (hint2 : (st.vorts v2).intensity ≠ 0)
    (hsum : (st.vorts v1).intensity + (st.vorts v2).intensity ≠ 0)
    (hvidx : (st.vorts v2).vIndex = v2) :
    ((mergeFire cfg draw H m ts st v1 v2 spawnsLeft).1.vorts v1).posX
      = ((st.vorts v1).posX * |(st.vorts v1).intensity|
          + (st.vorts v2).posX * |(st.vorts v2).intensity|)
        / (|(st.vorts v1).intensity| + |(st.vorts v2).intensity|) ∧
    ((mergeFire cfg draw H m ts st v1 v2 spawnsLeft).1.vorts v1).posY
      = ((st.vorts v1).posY * |(st.vorts v1).intensity|
          + (st.vorts v2).posY * |(st.vorts v2).intensity|)
        / (|(st.vorts v1).intensity| + |(st.vorts v2).intensity|) ∧
    ((mergeFire cfg draw H m ts st v1 v2 spawnsLeft).1.vorts v1).intensity
      = sgnQ ((st.vorts v1).intensity + (st.vorts v2).intensity)
        * cfg.csqrt |sgnQ (st.vorts v1).intensity * (st.vorts v1).intensity ^ 2
            + sgnQ (st.vorts v2).intensity * (st.vorts v2).intensity ^ 2| ∧
    (spawnsLeft ≠ 0 →
      (mergeFire cfg draw H m ts st v1 v2 spawnsLeft).1.numDriverVorts
          = st.numDriverVorts ∧
      (mergeFire cfg draw H m ts st v1 v2 spawnsLeft).2 = spawnsLeft - 1 ∧
      ((mergeFire cfg draw H m ts st v1 v2 spawnsLeft).1.vorts v2).vID
          = st.nextVortID ∧
      minIntensity
        ≤ |((mergeFire cfg draw H m ts st v1 v2 spawnsLeft).1.vorts v2).intensity|) ∧
    (spawnsLeft = 0 →
      (mergeFire cfg draw H m ts st v1 v2 spawnsLeft).1.numDriverVorts
          = st.numDriverVorts - 1) := by
  have hne : v1 ≠ v2 := by omega
  have hne' : v2 ≠ v1 := by omega
  have hmergedV1 : ∀ sl : ℕ,
      (mergeFire cfg draw H m ts st v1 v2 sl).1.vorts v1
        = { st.vorts v1 with
            posX := ((st.vorts v1).posX * |(st.vorts v1).intensity|
                + (st.vorts v2).posX * |(st.vorts v2).intensity|)
              / (|(st.vorts v1).intensity| + |(st.vorts v2).intensity|)
            posY := ((st.vorts v1).posY * |(st.vorts v1).intensity|
                + (st.vorts v2).posY * |(st.vorts v2).intensity|)
              / (|(st.vorts v1).intensity| + |(st.vorts v2).intensity|)
            intensity := mergeIntensities cfg (st.vorts v1).intensity
              (st.vorts v2).intensity } := by
    intro sl
    by_cases hsp : sl ≠ 0
    · simp only [mergeFire, if_pos hsp]
      rw [Function.update_noteq hne, Function.update_same]
    · simp only [mergeFire, if_neg hsp]
      rw [Function.update_noteq hne', hvidx,
        deleteVortex_vorts_lt _ _ _ _ _ _ v1 h12, Function.update_same]
  refine ⟨?_, ?_, ?_, ?_, ?_⟩
  · rw [hmergedV1 spawnsLeft]
  · rw [hmergedV1 spawnsLeft]
  · rw [hmergedV1 spawnsLeft]
    exact mergeIntensities_eq cfg _ _ hint1 hint2 hsum
  · intro hsp
    simp only [mergeFire, if_pos hsp]
    refine ⟨trivial, trivial, ?_, ?_⟩
    · rw [Function.update_same]
      simp [randomizeVortex]
    · rw [Function.update_same]
      simp only [randomizeVortex]
      exact Nat.find_spec (H (st.counter + 3))
  · intro hsp
    simp only [mergeFire, if_neg (by omega : ¬ spawnsLeft ≠ 0)]
    rw [Function.update_noteq hne', hvidx, deleteVortex_count]

/-- Witness for C7: a fired merge on the concrete two-vortex state with
spawn budget 1. -/
theorem claim_c7_witness :
    ((mergeFire cfgM drawW (fun s => ⟨0, by norm_num [drawW, minIntensity]⟩)
          1 0 mergeStW 0 1 1).1.vorts 0).posX
      = ((mergeStW.vorts 0).posX * |(mergeStW.vorts 0).intensity|
          + (mergeStW.vorts 1).posX * |(mergeStW.vorts 1).intensity|)
        / (|(mergeStW.vorts 0).intensity| + |(mergeStW.vorts 1).intensity|) ∧
    ((mergeFire cfgM drawW (fun s => ⟨0, by norm_num [drawW, minIntensity]⟩)
          1 0 mergeStW 0 1 1).1.vorts 0).posY
      = ((mergeStW.vorts 0).posY * |(mergeStW.vorts 0).intensity|
          + (mergeStW.vorts 1).posY * |(mergeStW.vorts 1).intensity|)
        / (|(mergeStW.vorts 0).intensity| + |(mergeStW.vorts 1).intensity|) ∧
    ((mergeFire cfgM drawW (fun s => ⟨0, by norm_num [drawW, minIntensity]⟩)
          1 0 mergeStW 0 1 1).1.vorts 0).intensity
      = sgnQ ((mergeStW.vorts 0).intensity + (mergeStW.vorts 1).intensity)
        * cfgM.csqrt |sgnQ (mergeStW.vorts 0).intensity * (mergeStW.vorts 0).intensity ^ 2
            + sgnQ (mergeStW.vorts 1).intensity * (mergeStW.vorts 1).intensity ^ 2| ∧
    ((1 : ℕ) ≠ 0 →
      (mergeFire cfgM drawW (fun s => ⟨0, by norm_num [drawW, minIntensity]⟩)
          1 0 mergeStW 0 1 1).1.numDriverVorts = mergeStW.numDriverVorts ∧
      (mergeFire cfgM drawW (fun s => ⟨0, by norm_num [drawW, minIntensity]⟩)
          1 0 mergeStW 0 1 1).2 = 1 - 1 ∧
      ((mergeFire cfgM drawW (fun s => ⟨0, by norm_num [drawW, minIntensity]⟩)
          1 0 mergeStW 0 1 1).1.vorts 1).vID = mergeStW.nextVortID ∧
      minIntensity
        ≤ |((mergeFire cfgM drawW (fun s => ⟨0, by norm_num [drawW, minIntensity]⟩)
            1 0 mergeStW 0 1 1).1.vorts 1).intensity|) ∧
    ((1 : ℕ) = 0 →
      (mergeFire cfgM drawW (fun s => ⟨0, by norm_num [drawW, minIntensity]⟩)
          1 0 mergeStW 0 1 1).1.numDriverVorts = mergeStW.numDriverVorts - 1) :=
  claim_c7 cfgM drawW (fun s => ⟨0, by norm_num [drawW, minIntensity]⟩) 1 0
    mergeStW 0 1 1 (by norm_num) (by norm_num [mergeStW])
    (by norm_num [mergeStW, cfgM, cfgW]) (by norm_num [mergeStW, vortFamW])
    (by norm_num [mergeStW, vortFamW]) (by norm_num [mergeStW, vortFamW])
    (by norm_num [mergeStW, vortFamW])

/-- Pointwise-equal fold steps give equal folds. -/
theorem foldl_congr_fun {α β : Type} (f g : β → α → β) (l : List α)
    (h : ∀ acc x, x ∈ l → f acc x = g acc x) :
    ∀ acc, l.foldl f acc = l.foldl g acc := by
  induction l with
  | nil => intro acc; rfl
  | cons x l ih =>
    intro acc
    rw [List.foldl_cons, List.foldl_cons, h acc x (List.mem_cons_self _ _)]
    exact ih (fun a y hy => h a y (List.mem_cons_of_mem _ hy)) _

/-- The vortex force evaluation depends on the vortex array only through
the `vIndex` and `intensity` fields, and on the subject vortex only
through its `vIndex`. -/
theorem calculateVel_vortex_congr (cfg : Config) (n : ℕ)
    (vortA vortB : Vortex) (A B : ℕ → Vortex) (rads : ℕ → ℚ) (v0 : ℚ × ℚ)
    (hv : vortA.vIndex = vortB.vIndex)
    (hidx : ∀ j, (A j).vIndex = (B j).vIndex)
    (hint : ∀ j, (A j).intensity = (B j).intensity) :
    calculateVel_vortex cfg n vortA A rads v0
      = calculateVel_vortex cfg n vortB B rads v0 := by
  unfold calculateVel_vortex
  apply foldl_congr_fun
  intro acc j _
  simp only [hv, hidx, hint]

/-- The tracer force evaluation depends on the distance table only
through its own row of cells, and on the vortex array only through the
`intensity` fields. -/
theorem calculateVel_tracer_congr (cfg : Config) (n tIdx : ℕ)
    (radsA radsB : ℕ → ℚ) (A B : ℕ → Vortex) (v0 : ℚ × ℚ)
    (hr : ∀ v, v < n →
      radsA (calculateTracerRadiiIndex n tIdx v)
          = radsB (calculateTracerRadiiIndex n tIdx v) ∧
      radsA (calculateTracerRadiiIndex n tIdx v + 1)
          = radsB (calculateTracerRadiiIndex n tIdx v + 1) ∧
      radsA (calculateTracerRadiiIndex n tIdx v + 2)
          = radsB (calculateTracerRadiiIndex n tIdx v + 2))
    (hint : ∀ j, (A j).intensity = (B j).intensity) :
    calculateVel_tracer cfg n tIdx radsA A v0
      = calculateVel_tracer cfg n tIdx radsB B v0 := by
  unfold calculateVel_tracer
  apply foldl_congr_fun
  intro acc v hv
  obtain ⟨h0, h1, h2⟩ := hr v (List.mem_range.mp hv)
  apply foldl_congr_fun
  intro acc2 d _
  simp only [h0, h1, h2, hint]

/-- A vortex task returns its origin vortex with exactly the stage's
weighted velocity sample added and every other field unchanged. -/
theorem stepForwardVortexRK4_vort (cfg : Config) (n : ℕ)
    (vortices : ℕ → Vortex) (origin : ℕ) (inter w itr : ℕ → ℚ)
    (m RKStep : ℕ) :
    (stepForwardVortexRK4 cfg n vortices origin inter w itr m RKStep).vort
      = { vortices origin with
          velX := (vortices origin).velX
            + (rkWeighted RKStep
                (calculateVel_vortex cfg n (vortices origin) vortices inter (0, 0))).1
          velY := (vortices origin).velY
            + (rkWeighted RKStep
                (calculateVel_vortex cfg n (vortices origin) vortices inter (0, 0))).2 } :=
  rfl

/-- A tracer loop iteration updates exactly its own tracer slot, adding
the stage's weighted velocity sample computed from the current
intermediate tracer table. -/
theorem tracerLoopBody_tracers (cfg : Config) (n RKStep : ℕ)
    (tracerRadii : ℕ → ℚ) (vortices : ℕ → Vortex)
    (acc : (ℕ → Tracer) × (ℕ → ℚ)) (tIdx : ℕ)
    (ht : ∀ i, (acc.1 i).tIndex = i) :
    (tracerLoopBody cfg n RKStep tracerRadii vortices acc tIdx).1
      = Function.update acc.1 tIdx
          { acc.1 tIdx with
            velX := (acc.1 tIdx).velX
              + (rkWeighted RKStep
                  (calculateVel_tracer cfg n tIdx acc.2 vortices (0, 0))).1
            velY := (acc.1 tIdx).velY
              + (rkWeighted RKStep
                  (calculateVel_tracer cfg n tIdx acc.2 vortices (0, 0))).2 } := by
  have h0 : (acc.1 tIdx).tIndex - (acc.1 0).tIndex = tIdx := by
    rw [ht, ht]; omega
  simp only [tracerLoopBody, h0]
  rfl

/-- A tracer loop iteration leaves every intermediate-table cell outside
its own row unchanged. -/
theorem tracerLoopBody_itr_frame (cfg : Config) (n RKStep : ℕ)
    (tracerRadii : ℕ → ℚ) (vortices : ℕ → Vortex)
    (acc : (ℕ → Tracer) × (ℕ → ℚ)) (tIdx : ℕ)
    (ht : ∀ i, (acc.1 i).tIndex = i) (k : ℕ)
    (hk : ∀ v, v < n → ∀ c, c < 3 → k ≠ calculateTracerRadiiIndex n tIdx v + c) :
    (tracerLoopBody cfg n RKStep tracerRadii vortices acc tIdx).2 k = acc.2 k := by
  have h0 : (acc.1 tIdx).tIndex - (acc.1 0).tIndex = tIdx := by
    rw [ht, ht]; omega
  simp only [tracerLoopBody, h0]
  refine foldl_write_frame cfg (List.range n)
    (fun v => calculateTracerRadiiIndex n tIdx v) _ _ acc.2 k ?_
  intro v hv
  have hvn : v < n := List.mem_range.mp hv
  refine ⟨?_, ?_, ?_⟩
  · have := hk v hvn 0 (by omega)
    simpa using this
  · have := hk v hvn 1 (by omega)
    simpa using this
  · have := hk v hvn 2 (by omega)
    simpa using this

/-- The vortex phase fold over a duplicate-free list of origins adds to
each listed vortex exactly the stage's weighted velocity sample computed
from the phase-entry array and the fixed intermediate table, and leaves
every other slot untouched. -/
theorem vortexFold_facts (cfg : Config) (n m RKStep : ℕ) (inter : ℕ → ℚ) :
    ∀ (l : List ℕ), l.Nodup → ∀ (A : ℕ → Vortex) (W T : ℕ → ℚ),
      (∀ i ∈ l,
        (l.foldl (vortexPhaseStep cfg n m RKStep inter) (A, W, T)).1 i
          = { A i with
              velX := (A i).velX + (rkWeighted RKStep
                (calculateVel_vortex cfg n (A i) A inter (0, 0))).1
              velY := (A i).velY + (rkWeighted RKStep
                (calculateVel_vortex cfg n (A i) A inter (0, 0))).2 }) ∧
      (∀ i, i ∉ l →
        (l.foldl (vortexPhaseStep cfg n m RKStep inter) (A, W, T)).1 i = A i) := by
  intro l
  induction l with
  | nil =>
    intro _ A W T
    exact ⟨fun i hi => absurd hi (List.not_mem_nil i), fun i _ => rfl⟩
  | cons i0 l ih =>
    intro hnd A W T
    obtain ⟨hnd1, hnd2⟩ := List.nodup_cons.mp hnd
    have hstep : (vortexPhaseStep cfg n m RKStep inter (A, W, T) i0).1
        = Function.update A i0
            { A i0 with
              velX := (A i0).velX + (rkWeighted RKStep
                (calculateVel_vortex cfg n (A i0) A inter (0, 0))).1
              velY := (A i0).velY + (rkWeighted RKStep
                (calculateVel_vortex cfg n (A i0) A inter (0, 0))).2 } := by
      simp only [vortexPhaseStep, stepForwardVortexRK4_vort]
    have hAi : ∀ i, i ≠ i0 →
        (vortexPhaseStep cfg n m RKStep inter (A, W, T) i0).1 i = A i := by
      intro i hi
      rw [hstep, Function.update_noteq hi]
    have hidx : ∀ j, ((vortexPhaseStep cfg n m RKStep inter (A, W, T) i0).1 j).vIndex
        = (A j).vIndex := by
      intro j
      rw [hstep, Function.update_apply]
      split_ifs with h
      · subst h; rfl
      · rfl
    have hint : ∀ j, ((vortexPhaseStep cfg n m RKStep inter (A, W, T) i0).1 j).intensity
        = (A j).intensity := by
      intro j
      rw [hstep, Function.update_apply]
      split_ifs with h
      · subst h; rfl
      · rfl
    obtain ⟨ihA, ihB⟩ := ih hnd2
      ((vortexPhaseStep cfg n m RKStep inter (A, W, T) i0).1)
      ((vortexPhaseStep cfg n m RKStep inter (A, W, T) i0).2.1)
      ((vortexPhaseStep cfg n m RKStep inter (A, W, T) i0).2.2)
    rw [List.foldl_cons]
    constructor
    · intro i hi
      rcases List.mem_cons.mp hi with rfl | hi'
      · rw [ihB i hnd1, hstep, Function.update_same]
      · have hii0 : i ≠ i0 := by
          intro he; subst he; exact hnd1 hi'
        have hcong : calculateVel_vortex cfg n
            ((vortexPhaseStep cfg n m RKStep inter (A, W, T) i0).1 i)
            ((vortexPhaseStep cfg n m RKStep inter (A, W, T) i0).1) inter (0, 0)
            = calculateVel_vortex cfg n (A i) A inter (0, 0) := by
          apply calculateVel_vortex_congr
          · rw [hAi i hii0]
          · exact hidx
          · exact hint
        rw [ihA i hi', hcong, hAi i hii0]
    · intro i hi
      have h2 : i ≠ i0 ∧ i ∉ l := by
        constructor
        · intro he; exact hi (he ▸ List.mem_cons_self _ _)
        · intro he; exact hi (List.mem_cons_of_mem _ he)
      rw [ihB i h2.2, hAi i h2.1]

/-- The tracer phase fold over a duplicate-free list of tracers adds to
each listed tracer exactly the stage's weighted velocity sample computed
from the phase-entry intermediate tracer table, and leaves every other
tracer untouched.  Requires the `tIndex` identity invariant and that the
listed rows of the running table still agree with the phase-entry table
`itr0`. -/
theorem tracerFold_facts (cfg : Config) (n RKStep : ℕ) (tracerRadii : ℕ → ℚ)
    (vortices : ℕ → Vortex) (itr0 : ℕ → ℚ) :
    ∀ (l : List ℕ) (tracers : ℕ → Tracer) (itr : ℕ → ℚ),
      l.Nodup →
      (∀ i, (tracers i).tIndex = i) →
      (∀ t ∈ l, ∀ v, v < n →
        itr (calculateTracerRadiiIndex n t v)
            = itr0 (calculateTracerRadiiIndex n t v) ∧
        itr (calculateTracerRadiiIndex n t v + 1)
            = itr0 (calculateTracerRadiiIndex n t v + 1) ∧
        itr (calculateTracerRadiiIndex n t v + 2)
            = itr0 (calculateTracerRadiiIndex n t v + 2)) →
      (∀ t ∈ l,
        (l.foldl (tracerLoopBody cfg n RKStep tracerRadii vortices)
            (tracers, itr)).1 t
          = { tracers t with
              velX := (tracers t).velX + (rkWeighted RKStep
                (calculateVel_tracer cfg n t itr0 vortices (0, 0))).1
              velY := (tracers t).velY + (rkWeighted RKStep
                (calculateVel_tracer cfg n t itr0 vortices (0, 0))).2 }) ∧
      (∀ t, t ∉ l →
        (l.foldl (tracerLoopBody cfg n RKStep tracerRadii vortices)
            (tracers, itr)).1 t = tracers t) := by
  intro l
  induction l with
  | nil =>
    intro tracers itr _ _ _
    exact ⟨fun t ht => absurd ht (List.not_mem_nil t), fun t _ => rfl⟩
  | cons t0 l ih =>
    intro tracers itr hnd ht hrows
    obtain ⟨hnd1, hnd2⟩ := List.nodup_cons.mp hnd
    have hvel : calculateVel_tracer cfg n t0 itr vortices (0, 0)
        = calculateVel_tracer cfg n t0 itr0 vortices (0, 0) := by
      apply calculateVel_tracer_congr
      · intro v hv
        exact hrows t0 (List.mem_cons_self _ _) v hv
      · intro j; rfl
    have hstep : (tracerLoopBody cfg n RKStep tracerRadii vortices
        (tracers, itr) t0).1
        = Function.update tracers t0
            { tracers t0 with
              velX := (tracers t0).velX + (rkWeighted RKStep
                (calculateVel_tracer cfg n t0 itr0 vortices (0, 0))).1
              velY := (tracers t0).velY + (rkWeighted RKStep
                (calculateVel_tracer cfg n t0 itr0 vortices (0, 0))).2 } := by
      rw [tracerLoopBody_tracers cfg n RKStep tracerRadii vortices
        (tracers, itr) t0 ht, hvel]
    have hTi : ∀ t, t ≠ t0 →
        (tracerLoopBody cfg n RKStep tracerRadii vortices (tracers, itr) t0).1 t
          = tracers t := by
      intro t h
      rw [hstep, Function.update_noteq h]
    have ht' : ∀ i, ((tracerLoopBody cfg n RKStep tracerRadii vortices
        (tracers, itr) t0).1 i).tIndex = i := by
      intro i
      rw [hstep, Function.update_apply]
      split_ifs with h
      · subst h
        exact ht i
      · exact ht i
    have hrows' : ∀ t ∈ l, ∀ v, v < n →
        (tracerLoopBody cfg n RKStep tracerRadii vortices (tracers, itr) t0).2
            (calculateTracerRadiiIndex n t v)
          = itr0 (calculateTracerRadiiIndex n t v) ∧
        (tracerLoopBody cfg n RKStep tracerRadii vortices (tracers, itr) t0).2
            (calculateTracerRadiiIndex n t v + 1)
          = itr0 (calculateTracerRadiiIndex n t v + 1) ∧
        (tracerLoopBody cfg n RKStep tracerRadii vortices (tracers, itr) t0).2
            (calculateTracerRadiiIndex n t v + 2)
          = itr0 (calculateTracerRadiiIndex n t v + 2) := by
      intro t htl v hv
      have ht0t : ¬ (t = t0 ∧ v = v) ∨ True := Or.inr trivial
      have hne : t ≠ t0 := by
        intro he; subst he; exact hnd1 htl
      have hfr : ∀ c, c < 3 →
          (tracerLoopBody cfg n RKStep tracerRadii vortices (tracers, itr) t0).2
              (calculateTracerRadiiIndex n t v + c)
            = itr (calculateTracerRadiiIndex n t v + c) := by
        intro c hc
        apply tracerLoopBody_itr_frame cfg n RKStep tracerRadii vortices
          (tracers, itr) t0 ht
        intro v2 hv2 c2 hc2
        exact tracerIdx_triple_ne n t v t0 v2 hv hv2
          (fun hcon => hne hcon.1) c c2 hc hc2
      obtain ⟨h0, h1, h2⟩ := hrows t (List.mem_cons_of_mem _ htl) v hv
      refine ⟨?_, ?_, ?_⟩
      · have := hfr 0 (by omega)
        rw [Nat.add_zero] at this
        rw [this, h0]
      · rw [hfr 1 (by omega), h1]
      · rw [hfr 2 (by omega), h2]
    obtain ⟨ihA, ihB⟩ := ih
      ((tracerLoopBody cfg n RKStep tracerRadii vortices (tracers, itr) t0).1)
      ((tracerLoopBody cfg n RKStep tracerRadii vortices (tracers, itr) t0).2)
      hnd2 ht' hrows'
    rw [List.foldl_cons]
    constructor
    · intro t htl
      rcases List.mem_cons.mp htl with rfl | htl'
      · rw [ihB t hnd1, hstep, Function.update_same]
      · have hne : t ≠ t0 := by
          intro he; subst he; exact hnd1 htl'
        rw [ihA t htl', hTi t hne]
    · intro t htl
      have h2 : t ≠ t0 ∧ t ∉ l := by
        constructor
        · intro he; exact htl (he ▸ List.mem_cons_self _ _)
        · intro he; exact htl (List.mem_cons_of_mem _ he)
      rw [ihB t h2.2, hTi t h2.1]

/-- One RK stage adds to every live vortex and tracer exactly the
stage's weighted velocity sample, evaluated against the stage-entry
intermediate tables, leaves the other slots untouched, and preserves the
`tIndex` identity invariant. -/
theorem rkStage_facts (cfg : Config) (n m : ℕ)
    (vortRadii tracerRadii : ℕ → ℚ) (s : StageState) (RKStep : ℕ)
    (ht : ∀ i, (s.tracers i).tIndex = i) :
    (∀ i, i < n → (rkStage cfg n m vortRadii tracerRadii s RKStep).vortices i
        = { s.vortices i with
            velX := (s.vortices i).velX + (rkWeighted RKStep
              (calculateVel_vortex cfg n (s.vortices i) s.vortices
                s.intermediateRadii (0, 0))).1
            velY := (s.vortices i).velY + (rkWeighted RKStep
              (calculateVel_vortex cfg n (s.vortices i) s.vortices
                s.intermediateRadii (0, 0))).2 }) ∧
    (∀ i, ¬ i < n →
      (rkStage cfg n m vortRadii tracerRadii s RKStep).vortices i
        = s.vortices i) ∧
    (∀ t, t < m → (rkStage cfg n m vortRadii tracerRadii s RKStep).tracers t
        = { s.tracers t with
            velX := (s.tracers t).velX + (rkWeighted RKStep
              (calculateVel_tracer cfg n t s.intermediateTracerRads
                s.vortices (0, 0))).1
            velY := (s.tracers t).velY + (rkWeighted RKStep
              (calculateVel_tracer cfg n t s.intermediateTracerRads
                s.vortices (0, 0))).2 }) ∧
    (∀ t, ¬ t < m →
      (rkStage cfg n m vortRadii tracerRadii s RKStep).tracers t
        = s.tracers t) ∧
    (∀ i, ((rkStage cfg n m vortRadii tracerRadii s RKStep).tracers i).tIndex
        = i) := by
  obtain ⟨tA, tB⟩ := tracerFold_facts cfg n RKStep tracerRadii s.vortices
    s.intermediateTracerRads (List.range m) s.tracers s.intermediateTracerRads
    (List.nodup_range m) ht (fun t _ v _ => ⟨rfl, rfl, rfl⟩)
  obtain ⟨vA, vB⟩ := vortexFold_facts cfg n m RKStep s.intermediateRadii
    (List.range n) (List.nodup_range n) s.vortices s.workingRadii
    ((stepForwardTracerRK4 cfg n m RKStep tracerRadii s.vortices s.tracers
      s.intermediateTracerRads).2)
  refine ⟨?_, ?_, ?_, ?_, ?_⟩
  · intro i hi
    exact vA i (List.mem_range.mpr hi)
  · intro i hi
    exact vB i (fun hmem => hi (List.mem_range.mp hmem))
  · intro t htm
    exact tA t (List.mem_range.mpr htm)
  · intro t htm
    exact tB t (fun hmem => htm (List.mem_range.mp hmem))
  · intro i
    by_cases him : i < m
    · have h : (rkStage cfg n m vortRadii tracerRadii s RKStep).tracers i
          = { s.tracers i with
              velX := (s.tracers i).velX + (rkWeighted RKStep
                (calculateVel_tracer cfg n i s.intermediateTracerRads
                  s.vortices (0, 0))).1
              velY := (s.tracers i).velY + (rkWeighted RKStep
                (calculateVel_tracer cfg n i s.intermediateTracerRads
                  s.vortices (0, 0))).2 } := tA i (List.mem_range.mpr him)
      rw [h]
      exact ht i
    · have h : (rkStage cfg n m vortRadii tracerRadii s RKStep).tracers i
          = s.tracers i := tB i (fun hmem => him (List.mem_range.mp hmem))
      rw [h]
      exact ht i

/-- The stage-entry state keeps the tracer `tIndex` identity. -/
theorem initialStage_tIndex (n m : ℕ) (st : SimState)
    (ht : ∀ i, (st.tracers i).tIndex = i) :
    ∀ i, ((initialStage n m st).tracers i).tIndex = i := by
  intro i
  simp only [initialStage]
  split_ifs with h
  · exact ht i
  · exact ht i

/-- The stage-entry state zeroes a live vortex's velocity and keeps its
other fields. -/
theorem initialStage_vort (n m : ℕ) (st : SimState) (i : ℕ) (hi : i < n) :
    (initialStage n m st).vortices i
      = { st.vortices i with velX := 0, velY := 0 } := by
  simp only [initialStage, if_pos hi]

/-- The stage-entry state zeroes a live tracer's velocity and keeps its
other fields. -/
theorem initialStage_tracer (n m : ℕ) (st : SimState) (t : ℕ) (ht : t < m) :
    (initialStage n m st).tracers t
      = { st.tracers t with velX := 0, velY := 0 } := by
  simp only [initialStage, if_pos ht]

/-- The vortex phase never changes the `vIndex`, `vID`, `intensity`,
`initStep` or position fields of any slot. -/
theorem vortexFold_preserves (cfg : Config) (n m RKStep : ℕ) (inter : ℕ → ℚ) :
    ∀ (l : List ℕ) (A : ℕ → Vortex) (W T : ℕ → ℚ) (i : ℕ),
      ((l.foldl (vortexPhaseStep cfg n m RKStep inter) (A, W, T)).1 i).vIndex
          = (A i).vIndex ∧
      ((l.foldl (vortexPhaseStep cfg n m RKStep inter) (A, W, T)).1 i).vID
          = (A i).vID ∧
      ((l.foldl (vortexPhaseStep cfg n m RKStep inter) (A, W, T)).1 i).intensity
          = (A i).intensity ∧
      ((l.foldl (vortexPhaseStep cfg n m RKStep inter) (A, W, T)).1 i).initStep
          = (A i).initStep ∧
      ((l.foldl (vortexPhaseStep cfg n m RKStep inter) (A, W, T)).1 i).posX
          = (A i).posX ∧
      ((l.foldl (vortexPhaseStep cfg n m RKStep inter) (A, W, T)).1 i).posY
          = (A i).posY := by
  intro l
  induction l with
  | nil => intro A W T i; exact ⟨rfl, rfl, rfl, rfl, rfl, rfl⟩
  | cons i0 l ih =>
    intro A W T i
    rw [List.foldl_cons]
    have hstep : ∀ j,
        ((vortexPhaseStep cfg n m RKStep inter (A, W, T) i0).1 j).vIndex
            = (A j).vIndex ∧
        ((vortexPhaseStep cfg n m RKStep inter (A, W, T) i0).1 j).vID
            = (A j).vID ∧
        ((vortexPhaseStep cfg n m RKStep inter (A, W, T) i0).1 j).intensity
            = (A j).intensity ∧
        ((vortexPhaseStep cfg n m RKStep inter (A, W, T) i0).1 j).initStep
            = (A j).initStep ∧
        ((vortexPhaseStep cfg n m RKStep inter (A, W, T) i0).1 j).posX
            = (A j).posX ∧
        ((vortexPhaseStep cfg n m RKStep inter (A, W, T) i0).1 j).posY
            = (A j).posY := by
      intro j
      simp only [vortexPhaseStep, stepForwardVortexRK4_vort]
      rw [Function.update_apply]
      split_ifs with h
      · subst h; exact ⟨rfl, rfl, rfl, rfl, rfl, rfl⟩
      · exact ⟨rfl, rfl, rfl, rfl, rfl, rfl⟩
    have := ih ((vortexPhaseStep cfg n m RKStep inter (A, W, T) i0).1)
      ((vortexPhaseStep cfg n m RKStep inter (A, W, T) i0).2.1)
      ((vortexPhaseStep cfg n m RKStep inter (A, W, T) i0).2.2) i
    obtain ⟨e1, e2, e3, e4, e5, e6⟩ := this
    obtain ⟨f1, f2, f3, f4, f5, f6⟩ := hstep i
    exact ⟨by rw [e1, f1], by rw [e2, f2], by rw [e3, f3], by rw [e4, f4],
      by rw [e5, f5], by rw [e6, f6]⟩

/-- The tracer phase never changes the `tIndex` or position fields of
any slot. -/
theorem tracerFold_preserves (cfg : Config) (n RKStep : ℕ)
    (tracerRadii : ℕ → ℚ) (vortices : ℕ → Vortex) :
    ∀ (l : List ℕ) (tracers : ℕ → Tracer) (itr : ℕ → ℚ) (i : ℕ),
      ((l.foldl (tracerLoopBody cfg n RKStep tracerRadii vortices)
          (tracers, itr)).1 i).tIndex = (tracers i).tIndex ∧
      ((l.foldl (tracerLoopBody cfg n RKStep tracerRadii vortices)
          (tracers, itr)).1 i).posX = (tracers i).posX ∧
      ((l.foldl (tracerLoopBody cfg n RKStep tracerRadii vortices)
          (tracers, itr)).1 i).posY = (tracers i).posY := by
  intro l
  induction l with
  | nil => intro tracers itr i; exact ⟨rfl, rfl, rfl⟩
  | cons t0 l ih =>
    intro tracers itr i
    rw [List.foldl_cons]
    have hstep : ∀ j,
        ((tracerLoopBody cfg n RKStep tracerRadii vortices (tracers, itr) t0).1 j).tIndex
            = (tracers j).tIndex ∧
        ((tracerLoopBody cfg n RKStep tracerRadii vortices (tracers, itr) t0).1 j).posX
            = (tracers j).posX ∧
        ((tracerLoopBody cfg n RKStep tracerRadii vortices (tracers, itr) t0).1 j).posY
            = (tracers j).posY := by
      intro j
      by_cases h : j = t0
      · subst h
        simp [tracerLoopBody]
      · simp [tracerLoopBody, Function.update_noteq h]
    have := ih ((tracerLoopBody cfg n RKStep tracerRadii vortices (tracers, itr) t0).1)
      ((tracerLoopBody cfg n RKStep tracerRadii vortices (tracers, itr) t0).2) i
    obtain ⟨e1, e2, e3⟩ := this
    obtain ⟨f1, f2, f3⟩ := hstep i
    exact ⟨by rw [e1, f1], by rw [e2, f2], by rw [e3, f3]⟩

/-- C6: over one call of stepForward_RK4, each live vortex's and tracer's
velocity starts from zero (it is zeroed before the stage loop), ends at
exactly (k1 + 2*k2 + 2*k3 + k4)/6 built from the four stage velocity
samples and nothing else, and the committed position advance equals that
accumulated velocity times the timestep. -/
theorem claim_c6 (cfg : Config) (n m : ℕ) (st : SimState)
    (ht : ∀ i, (st.tracers i).tIndex = i) :
    (∀ i, i < n →
      ((stepForward_RK4 cfg n m st).vortices i).velX
          = ((kVort cfg n m st.vortRadii st.tracerRadii (initialStage n m st) 1 i).1
              + 2 * (kVort cfg n m st.vortRadii st.tracerRadii (initialStage n m st) 2 i).1
              + 2 * (kVort cfg n m st.vortRadii st.tracerRadii (initialStage n m st) 3 i).1
              + (kVort cfg n m st.vortRadii st.tracerRadii (initialStage n m st) 4 i).1) / 6 ∧
      ((stepForward_RK4 cfg n m st).vortices i).velY
          = ((kVort cfg n m st.vortRadii st.tracerRadii (initialStage n m st) 1 i).2
              + 2 * (kVort cfg n m st.vortRadii st.tracerRadii (initialStage n m st) 2 i).2
              + 2 * (kVort cfg n m st.vortRadii st.tracerRadii (initialStage n m st) 3 i).2
              + (kVort cfg n m st.vortRadii st.tracerRadii (initialStage n m st) 4 i).2) / 6 ∧
      ((stepForward_RK4 cfg n m st).vortices i).posX
          = (st.vortices i).posX
              + ((stepForward_RK4 cfg n m st).vortices i).velX * cfg.timestep ∧
      ((stepForward_RK4 cfg n m st).vortices i).posY
          = (st.vortices i).posY
              + ((stepForward_RK4 cfg n m st).vortices i).velY * cfg.timestep) ∧
    (∀ t, t < m →
      ((stepForward_RK4 cfg n m st).tracers t).velX
          = ((kTracer cfg n m st.vortRadii st.tracerRadii (initialStage n m st) 1 t).1
              + 2 * (kTracer cfg n m st.vortRadii st.tracerRadii (initialStage n m st) 2 t).1
              + 2 * (kTracer cfg n m st.vortRadii st.tracerRadii (initialStage n m st) 3 t).1
              + (kTracer cfg n m st.vortRadii st.tracerRadii (initialStage n m st) 4 t).1) / 6 ∧
      ((stepForward_RK4 cfg n m st).tracers t).velY
          = ((kTracer cfg n m st.vortRadii st.tracerRadii (initialStage n m st) 1 t).2
              + 2 * (kTracer cfg n m st.vortRadii st.tracerRadii (initialStage n m st) 2 t).2
              + 2 * (kTracer cfg n m st.vortRadii st.tracerRadii (initialStage n m st) 3 t).2
              + (kTracer cfg n m st.vortRadii st.tracerRadii (initialStage n m st) 4 t).2) / 6 ∧
      ((stepForward_RK4 cfg n m st).tracers t).posX
          = (st.tracers t).posX
              + ((stepForward_RK4 cfg n m st).tracers t).velX * cfg.timestep ∧
      ((stepForward_RK4 cfg n m st).tracers t).posY
          = (st.tracers t).posY
              + ((stepForward_RK4 cfg n m st).tracers t).velY * cfg.timestep) := by
  set vr := st.vortRadii with hvr
  set tr := st.tracerRadii with htrr
  set S0 := initialStage n m st with hS0
  set S1 := rkStage cfg n m vr tr S0 1 with hS1
  set S2 := rkStage cfg n m vr tr S1 2 with hS2
  set S3 := rkStage cfg n m vr tr S2 3 with hS3
  set S4 := rkStage cfg n m vr tr S3 4 with hS4
  have ht0 : ∀ i, (S0.tracers i).tIndex = i := initialStage_tIndex n m st ht
  have F1 := rkStage_facts cfg n m vr tr S0 1 ht0
  have ht1 : ∀ i, (S1.tracers i).tIndex = i := F1.2.2.2.2
  have F2 := rkStage_facts cfg n m vr tr S1 2 ht1
  have ht2 : ∀ i, (S2.tracers i).tIndex = i := F2.2.2.2.2
  have F3 := rkStage_facts cfg n m vr tr S2 3 ht2
  have ht3 : ∀ i, (S3.tracers i).tIndex = i := F3.2.2.2.2
  have F4 := rkStage_facts cfg n m vr tr S3 4 ht3
  constructor
  · intro i hi
    have hc : (stepForward_RK4 cfg n m st).vortices i
        = if i < n then
            { S4.vortices i with
              posX := (S4.vortices i).posX + (S4.vortices i).velX * cfg.timestep
              posY := (S4.vortices i).posY + (S4.vortices i).velY * cfg.timestep }
          else S4.vortices i := rfl
    rw [if_pos hi] at hc
    have hcv : ((stepForward_RK4 cfg n m st).vortices i).velX
        = (S4.vortices i).velX := by rw [hc]
    have hcw : ((stepForward_RK4 cfg n m st).vortices i).velY
        = (S4.vortices i).velY := by rw [hc]
    have hcx : ((stepForward_RK4 cfg n m st).vortices i).posX
        = (S4.vortices i).posX + (S4.vortices i).velX * cfg.timestep := by rw [hc]
    have hcy : ((stepForward_RK4 cfg n m st).vortices i).posY
        = (S4.vortices i).posY + (S4.vortices i).velY * cfg.timestep := by rw [hc]
    have hx1 : (S1.vortices i).velX = (S0.vortices i).velX
        + (rkWeighted 1 (calculateVel_vortex cfg n (S0.vortices i) S0.vortices
            S0.intermediateRadii (0, 0))).1 := by rw [hS1, F1.1 i hi]
    have hy1 : (S1.vortices i).velY = (S0.vortices i).velY
        + (rkWeighted 1 (calculateVel_vortex cfg n (S0.vortices i) S0.vortices
            S0.intermediateRadii (0, 0))).2 := by rw [hS1, F1.1 i hi]
    have hpx1 : (S1.vortices i).posX = (S0.vortices i).posX := by rw [hS1, F1.1 i hi]
    have hpy1 : (S1.vortices i).posY = (S0.vortices i).posY := by rw [hS1, F1.1 i hi]
    have hx2 : (S2.vortices i).velX = (S1.vortices i).velX
        + (rkWeighted 2 (calculateVel_vortex cfg n (S1.vortices i) S1.vortices
            S1.intermediateRadii (0, 0))).1 := by rw [hS2, F2.1 i hi]
    have hy2 : (S2.vortices i).velY = (S1.vortices i).velY
        + (rkWeighted 2 (calculateVel_vortex cfg n (S1.vortices i) S1.vortices
            S1.intermediateRadii (0, 0))).2 := by rw [hS2, F2.1 i hi]
    have hpx2 : (S2.vortices i).posX = (S1.vortices i).posX := by rw [hS2, F2.1 i hi]
    have hpy2 : (S2.vortices i).posY = (S1.vortices i).posY := by rw [hS2, F2.1 i hi]
    have hx3 : (S3.vortices i).velX = (S2.vortices i).velX
        + (rkWeighted 3 (calculateVel_vortex cfg n (S2.vortices i) S2.vortices
            S2.intermediateRadii (0, 0))).1 := by rw [hS3, F3.1 i hi]
    have hy3 : (S3.vortices i).velY = (S2.vortices i).velY
        + (rkWeighted 3 (calculateVel_vortex cfg n (S2.vortices i) S2.vortices
            S2.intermediateRadii (0, 0))).2 := by rw [hS3, F3.1 i hi]
    have hpx3 : (S3.vortices i).posX = (S2.vortices i).posX := by rw [hS3, F3.1 i hi]
    have hpy3 : (S3.vortices i).posY = (S2.vortices i).posY := by rw [hS3, F3.1 i hi]
    have hx4 : (S4.vortices i).velX = (S3.vortices i).velX
        + (rkWeighted 4 (calculateVel_vortex cfg n (S3.vortices i) S3.vortices
            S3.intermediateRadii (0, 0))).1 := by rw [hS4, F4.1 i hi]
    have hy4 : (S4.vortices i).velY = (S3.vortices i).velY
        + (rkWeighted 4 (calculateVel_vortex cfg n (S3.vortices i) S3.vortices
            S3.intermediateRadii (0, 0))).2 := by rw [hS4, F4.1 i hi]
    have hpx4 : (S4.vortices i).posX = (S3.vortices i).posX := by rw [hS4, F4.1 i hi]
    have hpy4 : (S4.vortices i).posY = (S3.vortices i).posY := by rw [hS4, F4.1 i hi]
    have hx0 : (S0.vortices i).velX = 0 := by rw [hS0, initialStage_vort n m st i hi]
    have hy0 : (S0.vortices i).velY = 0 := by rw [hS0, initialStage_vort n m st i hi]
    have hpx0 : (S0.vortices i).posX = (st.vortices i).posX := by
      rw [hS0, initialStage_vort n m st i hi]
    have hpy0 : (S0.vortices i).posY = (st.vortices i).posY := by
      rw [hS0, initialStage_vort n m st i hi]
    have hk1 : kVort cfg n m vr tr S0 1 i
        = calculateVel_vortex cfg n (S0.vortices i) S0.vortices
            S0.intermediateRadii (0, 0) := rfl
    have hk2 : kVort cfg n m vr tr S0 2 i
        = calculateVel_vortex cfg n (S1.vortices i) S1.vortices
            S1.intermediateRadii (0, 0) := rfl
    have hk3 : kVort cfg n m vr tr S0 3 i
        = calculateVel_vortex cfg n (S2.vortices i) S2.vortices
            S2.intermediateRadii (0, 0) := rfl
    have hk4 : kVort cfg n m vr tr S0 4 i
        = calculateVel_vortex cfg n (S3.vortices i) S3.vortices
            S3.intermediateRadii (0, 0) := rfl
    refine ⟨?_, ?_, ?_, ?_⟩
    · rw [hcv, hx4, hx3, hx2, hx1, hx0, ← hk1, ← hk2, ← hk3, ← hk4]
      norm_num [rkWeighted]
      try ring
    · rw [hcw, hy4, hy3, hy2, hy1, hy0, ← hk1, ← hk2, ← hk3, ← hk4]
      norm_num [rkWeighted]
      try ring
    · rw [hcx, hcv, hpx4, hpx3, hpx2, hpx1, hpx0]
    · rw [hcy, hcw, hpy4, hpy3, hpy2, hpy1, hpy0]
  · intro t htm
    have hc : (stepForward_RK4 cfg n m st).tracers t
        = if t < m then
            { S4.tracers t with
              posX := (S4.tracers t).posX + (S4.tracers t).velX * cfg.timestep
              posY := (S4.tracers t).posY + (S4.tracers t).velY * cfg.timestep }
          else S4.tracers t := rfl
    rw [if_pos htm] at hc
    have hcv : ((stepForward_RK4 cfg n m st).tracers t).velX
        = (S4.tracers t).velX := by rw [hc]
    have hcw : ((stepForward_RK4 cfg n m st).tracers t).velY
        = (S4.tracers t).velY := by rw [hc]
    have hcx : ((stepForward_RK4 cfg n m st).tracers t).posX
        = (S4.tracers t).posX + (S4.tracers t).velX * cfg.timestep := by rw [hc]
    have hcy : ((stepForward_RK4 cfg n m st).tracers t).posY
        = (S4.tracers t).posY + (S4.tracers t).velY * cfg.timestep := by rw [hc]
    have hx1 : (S1.tracers t).velX = (S0.tracers t).velX
        + (rkWeighted 1 (calculateVel_tracer cfg n t S0.intermediateTracerRads
            S0.vortices (0, 0))).1 := by rw [hS1, F1.2.2.1 t htm]
    have hy1 : (S1.tracers t).velY = (S0.tracers t).velY
        + (rkWeighted 1 (calculateVel_tracer cfg n t S0.intermediateTracerRads
            S0.vortices (0, 0))).2 := by rw [hS1, F1.2.2.1 t htm]
    have hpx1 : (S1.tracers t).posX = (S0.tracers t).posX := by rw [hS1, F1.2.2.1 t htm]
    have hpy1 : (S1.tracers t).posY = (S0.tracers t).posY := by rw [hS1, F1.2.2.1 t htm]
    have hx2 : (S2.tracers t).velX = (S1.tracers t).velX
        + (rkWeighted 2 (calculateVel_tracer cfg n t S1.intermediateTracerRads
            S1.vortices (0, 0))).1 := by rw [hS2, F2.2.2.1 t htm]
    have hy2 : (S2.tracers t).velY = (S1.tracers t).velY
        + (rkWeighted 2 (calculateVel_tracer cfg n t S1.intermediateTracerRads
            S1.vortices (0, 0))).2 := by rw [hS2, F2.2.2.1 t htm]
    have hpx2 : (S2.tracers t).posX = (S1.tracers t).posX := by rw [hS2, F2.2.2.1 t htm]
    have hpy2 : (S2.tracers t).posY = (S1.tracers t).posY := by rw [hS2, F2.2.2.1 t htm]
    have hx3 : (S3.tracers t).velX = (S2.tracers t).velX
        + (rkWeighted 3 (calculateVel_tracer cfg n t S2.intermediateTracerRads
            S2.vortices (0, 0))).1 := by rw [hS3, F3.2.2.1 t htm]
    have hy3 : (S3.tracers t).velY = (S2.tracers t).velY
        + (rkWeighted 3 (calculateVel_tracer cfg n t S2.intermediateTracerRads
            S2.vortices (0, 0))).2 := by rw [hS3, F3.2.2.1 t htm]
    have hpx3 : (S3.tracers t).posX = (S2.tracers t).posX := by rw [hS3, F3.2.2.1 t htm]
    have hpy3 : (S3.tracers t).posY = (S2.tracers t).posY := by rw [hS3, F3.2.2.1 t htm]
    have hx4 : (S4.tracers t).velX = (S3.tracers t).velX
        + (rkWeighted 4 (calculateVel_tracer cfg n t S3.intermediateTracerRads
            S3.vortices (0, 0))).1 := by rw [hS4, F4.2.2.1 t htm]
    have hy4 : (S4.tracers t).velY = (S3.tracers t).velY
        + (rkWeighted 4 (calculateVel_tracer cfg n t S3.intermediateTracerRads
            S3.vortices (0, 0))).2 := by rw [hS4, F4.2.2.1 t htm]
    have hpx4 : (S4.tracers t).posX = (S3.tracers t).posX := by rw [hS4, F4.2.2.1 t htm]
    have hpy4 : (S4.tracers t).posY = (S3.tracers t).posY := by rw [hS4, F4.2.2.1 t htm]
    have hx0 : (S0.tracers t).velX = 0 := by rw [hS0, initialStage_tracer n m st t htm]
    have hy0 : (S0.tracers t).velY = 0 := by rw [hS0, initialStage_tracer n m st t htm]
    have hpx0 : (S0.tracers t).posX = (st.tracers t).posX := by
      rw [hS0, initialStage_tracer n m st t htm]
    have hpy0 : (S0.tracers t).posY = (st.tracers t).posY := by
      rw [hS0, initialStage_tracer n m st t htm]
    have hk1 : kTracer cfg n m vr tr S0 1 t
        = calculateVel_tracer cfg n t S0.intermediateTracerRads S0.vortices (0, 0) := by
      show calculateVel_tracer cfg n ((S0.tracers t).tIndex - (S0.tracers 0).tIndex)
          S0.intermediateTracerRads S0.vortices (0, 0) = _
      rw [ht0 t, ht0 0, Nat.sub_zero]
    have hk2 : kTracer cfg n m vr tr S0 2 t
        = calculateVel_tracer cfg n t S1.intermediateTracerRads S1.vortices (0, 0) := by
      show calculateVel_tracer cfg n ((S1.tracers t).tIndex - (S1.tracers 0).tIndex)
          S1.intermediateTracerRads S1.vortices (0, 0) = _
      rw [ht1 t, ht1 0, Nat.sub_zero]
    have hk3 : kTracer cfg n m vr tr S0 3 t
        = calculateVel_tracer cfg n t S2.intermediateTracerRads S2.vortices (0, 0) := by
      show calculateVel_tracer cfg n ((S2.tracers t).tIndex - (S2.tracers 0).tIndex)
          S2.intermediateTracerRads S2.vortices (0, 0) = _
      rw [ht2 t, ht2 0, Nat.sub_zero]
    have hk4 : kTracer cfg n m vr tr S0 4 t
        = calculateVel_tracer cfg n t S3.intermediateTracerRads S3.vortices (0, 0) := by
      show calculateVel_tracer cfg n ((S3.tracers t).tIndex - (S3.tracers 0).tIndex)
          S3.intermediateTracerRads S3.vortices (0, 0) = _
      rw [ht3 t, ht3 0, Nat.sub_zero]
    refine ⟨?_, ?_, ?_, ?_⟩
    · rw [hcv, hx4, hx3, hx2, hx1, hx0, ← hk1, ← hk2, ← hk3, ← hk4]
      norm_num [rkWeighted]
      try ring
    · rw [hcw, hy4, hy3, hy2, hy1, hy0, ← hk1, ← hk2, ← hk3, ← hk4]
      norm_num [rkWeighted]
      try ring
    · rw [hcx, hcv, hpx4, hpx3, hpx2, hpx1, hpx0]
    · rw [hcy, hcw, hpy4, hpy3, hpy2, hpy1, hpy0]

/-- Witness for C6 at the concrete one-vortex, one-tracer state. -/
theorem claim_c6_witness :
    (∀ i, (simStW.tracers i).tIndex = i) ∧
    ((stepForward_RK4 cfgW 1 1 simStW).vortices 0).velX
        = ((kVort cfgW 1 1 simStW.vortRadii simStW.tracerRadii
              (initialStage 1 1 simStW) 1 0).1
            + 2 * (kVort cfgW 1 1 simStW.vortRadii simStW.tracerRadii
              (initialStage 1 1 simStW) 2 0).1
            + 2 * (kVort cfgW 1 1 simStW.vortRadii simStW.tracerRadii
              (initialStage 1 1 simStW) 3 0).1
            + (kVort cfgW 1 1 simStW.vortRadii simStW.tracerRadii
              (initialStage 1 1 simStW) 4 0).1) / 6 :=
  ⟨fun i => rfl, ((claim_c6 cfgW 1 1 simStW (fun i => rfl)).1 0 Nat.one_pos).1⟩

/-- C10: one call of stepForward_RK4 returns the committed vortex pair
table exactly as it was passed, overwrites the committed tracer table
with the last stage's intermediate tracer table, and apart from the
positions and velocities modifies no field of any vortex or tracer. -/
theorem claim_c10 (cfg : Config) (n m : ℕ) (st : SimState) :
    (stepForward_RK4 cfg n m st).vortRadii = st.vortRadii ∧
    (stepForward_RK4 cfg n m st).tracerRadii
        = (stageStateAfter cfg n m st.vortRadii st.tracerRadii
            (initialStage n m st) 4).intermediateTracerRads ∧
    (∀ i, ((stepForward_RK4 cfg n m st).vortices i).vIndex = (st.vortices i).vIndex ∧
      ((stepForward_RK4 cfg n m st).vortices i).vID = (st.vortices i).vID ∧
      ((stepForward_RK4 cfg n m st).vortices i).intensity = (st.vortices i).intensity ∧
      ((stepForward_RK4 cfg n m st).vortices i).initStep = (st.vortices i).initStep) ∧
    (∀ t, ((stepForward_RK4 cfg n m st).tracers t).tIndex = (st.tracers t).tIndex) := by
  set vr := st.vortRadii with hvr
  set tr := st.tracerRadii with htrr
  set S0 := initialStage n m st with hS0
  set S1 := rkStage cfg n m vr tr S0 1 with hS1
  set S2 := rkStage cfg n m vr tr S1 2 with hS2
  set S3 := rkStage cfg n m vr tr S2 3 with hS3
  set S4 := rkStage cfg n m vr tr S3 4 with hS4
  have hstage : ∀ (s : StageState) (RKStep i : ℕ),
      ((rkStage cfg n m vr tr s RKStep).vortices i).vIndex = (s.vortices i).vIndex ∧
      ((rkStage cfg n m vr tr s RKStep).vortices i).vID = (s.vortices i).vID ∧
      ((rkStage cfg n m vr tr s RKStep).vortices i).intensity = (s.vortices i).intensity ∧
      ((rkStage cfg n m vr tr s RKStep).vortices i).initStep = (s.vortices i).initStep := by
    intro s RKStep i
    have h := vortexFold_preserves cfg n m RKStep s.intermediateRadii (List.range n)
      s.vortices s.workingRadii
      ((stepForwardTracerRK4 cfg n m RKStep tr s.vortices s.tracers
        s.intermediateTracerRads).2) i
    exact ⟨h.1, h.2.1, h.2.2.1, h.2.2.2.1⟩
  have hstageT : ∀ (s : StageState) (RKStep t : ℕ),
      ((rkStage cfg n m vr tr s RKStep).tracers t).tIndex = (s.tracers t).tIndex := by
    intro s RKStep t
    exact (tracerFold_preserves cfg n RKStep tr s.vortices (List.range m)
      s.tracers s.intermediateTracerRads t).1
  refine ⟨rfl, rfl, ?_, ?_⟩
  · intro i
    have hcm : (stepForward_RK4 cfg n m st).vortices i
        = if i < n then
            { S4.vortices i with
              posX := (S4.vortices i).posX + (S4.vortices i).velX * cfg.timestep
              posY := (S4.vortices i).posY + (S4.vortices i).velY * cfg.timestep }
          else S4.vortices i := rfl
    have q4 := hstage S3 4 i
    have q3 := hstage S2 3 i
    have q2 := hstage S1 2 i
    have q1 := hstage S0 1 i
    have q0 : ((initialStage n m st).vortices i).vIndex = (st.vortices i).vIndex ∧
        ((initialStage n m st).vortices i).vID = (st.vortices i).vID ∧
        ((initialStage n m st).vortices i).intensity = (st.vortices i).intensity ∧
        ((initialStage n m st).vortices i).initStep = (st.vortices i).initStep := by
      simp only [initialStage]
      split_ifs <;> exact ⟨rfl, rfl, rfl, rfl⟩
    have hS4v : (S4.vortices i).vIndex = (st.vortices i).vIndex ∧
        (S4.vortices i).vID = (st.vortices i).vID ∧
        (S4.vortices i).intensity = (st.vortices i).intensity ∧
        (S4.vortices i).initStep = (st.vortices i).initStep := by
      refine ⟨?_, ?_, ?_, ?_⟩
      · rw [hS4, q4.1, hS3, q3.1, hS2, q2.1, hS1, q1.1, hS0, q0.1]
      · rw [hS4, q4.2.1, hS3, q3.2.1, hS2, q2.2.1, hS1, q1.2.1, hS0, q0.2.1]
      · rw [hS4, q4.2.2.1, hS3, q3.2.2.1, hS2, q2.2.2.1, hS1, q1.2.2.1, hS0, q0.2.2.1]
      · rw [hS4, q4.2.2.2, hS3, q3.2.2.2, hS2, q2.2.2.2, hS1, q1.2.2.2, hS0, q0.2.2.2]
    have hfin : ((stepForward_RK4 cfg n m st).vortices i).vIndex
          = (S4.vortices i).vIndex ∧
        ((stepForward_RK4 cfg n m st).vortices i).vID = (S4.vortices i).vID ∧
        ((stepForward_RK4 cfg n m st).vortices i).intensity
          = (S4.vortices i).intensity ∧
        ((stepForward_RK4 cfg n m st).vortices i).initStep
          = (S4.vortices i).initStep := by
      rw [hcm]
      split_ifs <;> exact ⟨rfl, rfl, rfl, rfl⟩
    exact ⟨hfin.1.trans hS4v.1, hfin.2.1.trans hS4v.2.1,
      hfin.2.2.1.trans hS4v.2.2.1, hfin.2.2.2.trans hS4v.2.2.2⟩
  · intro t
    have hcm : (stepForward_RK4 cfg n m st).tracers t
        = if t < m then
            { S4.tracers t with
              posX := (S4.tracers t).posX + (S4.tracers t).velX * cfg.timestep
              posY := (S4.tracers t).posY + (S4.tracers t).velY * cfg.timestep }
          else S4.tracers t := rfl
    have r4 := hstageT S3 4 t
    have r3 := hstageT S2 3 t
    have r2 := hstageT S1 2 t
    have r1 := hstageT S0 1 t
    have r0 : ((initialStage n m st).tracers t).tIndex = (st.tracers t).tIndex := by
      simp only [initialStage]
      split_ifs <;> rfl
    have hS4t : (S4.tracers t).tIndex = (st.tracers t).tIndex := by
      rw [hS4, r4, hS3, r3, hS2, r2, hS1, r1, hS0, r0]
    have hfinT : ((stepForward_RK4 cfg n m st).tracers t).tIndex
        = (S4.tracers t).tIndex := by
      rw [hcm]
      split_ifs <;> rfl
    exact hfinT.trans hS4t

end NBodySim
